import Mathlib

/-!
# Fluent builders of `litmuschaos/elves` (package tree `kubernetes/`)

A shallow embedding of the Go builders for ConfigMap, Job, JobSpec, Pod and
Volume descriptors, followed by theorems about them.

Conventions of the embedding

* A Go `error` is represented by its message (`err.Error()`), a `[]error` by
  the list of messages in slice order.
* A Go `map[string]string` is a reference value: a `MapRef` is either `nil`
  (`none`) or the address of a cell of the `Heap`; the cell holds the entries.
  Setters that read or write maps take the heap and return the new heap.
* A Go pointer to a scalar or to a plain struct (`*int32`, `*HostPathType`,
  `*EmptyDirVolumeSource`, ...) is an `Option` of the value pointed to.
* A builder is always reached through the pointer returned by `NewBuilder`,
  which is never nil; a setter maps the builder state to the new state
  (the Go method mutates in place and returns the same pointer).
* A function that can hit a nil-pointer dereference returns an `Option`, where
  `none` is the run-time panic.
* Go `len(s) == 0` on a string is tested on the number of characters of the
  Lean string, which is zero for the same strings (only the empty one).
* Of the Kubernetes API structs only the fields the builders touch are kept.
-/

namespace Elves

/-! ## Go values: strings, errors, maps -/

/-- Entries of a Go `map[string]string`. -/
abbrev GoMap := List (String × String)

/-- Read `m[k]`: the value stored under `k`, if any. -/
def GoMap.get (m : GoMap) (k : String) : Option String :=
  match m with
  | [] => none
  | (k', v') :: rest => if k' = k then some v' else GoMap.get rest k

/-- Assignment `m[k] = v`: overwrite the entry of `k`, or add one. -/
def GoMap.set (m : GoMap) (k v : String) : GoMap :=
  match m with
  | [] => [(k, v)]
  | (k', v') :: rest => if k' = k then (k, v) :: rest else (k', v') :: GoMap.set rest k v

/-- Keys of a map. -/
def GoMap.keys (m : GoMap) : List String := m.map Prod.fst

/-- The store of allocated maps; the address of a map is its index. -/
structure Heap where
  cells : List GoMap
deriving DecidableEq, Repr

/-- Value of Go type `map[string]string`: `none` is the nil map. -/
abbrev MapRef := Option Nat

namespace Heap

/-- Entries of the map at address `a`. -/
def read (h : Heap) (a : Nat) : GoMap := h.cells.getD a []

/-- Entries seen through a map value; a nil map reads as empty. -/
def deref (h : Heap) (r : MapRef) : GoMap :=
  match r with
  | none => []
  | some a => h.read a

/-- Go `len(m)`. -/
def len (h : Heap) (r : MapRef) : Nat := (h.deref r).length

/-- Go `map[string]string{}`: allocate an empty map, return its address. -/
def make (h : Heap) : Heap × Nat := ({ cells := h.cells ++ [[]] }, h.cells.length)

/-- Go `m[k] = v` on the map at address `a`. -/
def assign (h : Heap) (a : Nat) (k v : String) : Heap :=
  { cells := h.cells.set a ((h.read a).set k v) }

/-- Go `for key, value := range src { dst[key] = value }`, with `entries` the
entries of `src` when the loop starts. -/
def rangeAssign (h : Heap) (dst : Nat) (entries : GoMap) : Heap :=
  entries.foldl (fun h' e => h'.assign dst e.1 e.2) h

/-- The reference points into the heap (nil is always fine). -/
def validRef (h : Heap) (r : MapRef) : Prop :=
  match r with
  | none => True
  | some a => a < h.cells.length

instance (h : Heap) (r : MapRef) : Decidable (h.validRef r) := by
  unfold validRef; cases r <;> infer_instance

end Heap

/-- Elements of a `[]error` as `fmt` prints them inside the brackets:
separated by one blank. -/
def joinErrs : List String → String
  | [] => ""
  | [e] => e
  | e :: es => e ++ " " ++ joinErrs es

/-- Text that `fmt` produces for a `[]error` under `%v` and `%+v`. -/
def fmtErrs (errs : List String) : String := "[" ++ joinErrs errs ++ "]"

/-- The text `sub` occurs in `msg`. -/
def containsText (msg sub : String) : Prop := ∃ pre post : String, msg = pre ++ sub ++ post

/-! ## Kubernetes API structs (fields used by the builders) -/

namespace metav1

/-- Object metadata `metav1.ObjectMeta`. -/
structure ObjectMeta where
  Name : String := ""
  Namespace : String := ""
  Labels : MapRef := none
  Annotations : MapRef := none
deriving DecidableEq, Repr

end metav1

namespace corev1

/-- Container descriptor `corev1.Container`. -/
structure Container where
  Name : String := ""
  Image : String := ""
deriving DecidableEq, Repr

/-- Pod specification `corev1.PodSpec`. -/
structure PodSpec where
  Containers : List Container := []
  RestartPolicy : String := ""
  ServiceAccountName : String := ""
deriving DecidableEq, Repr

/-- Pod template `corev1.PodTemplateSpec`. -/
structure PodTemplateSpec where
  ObjectMeta : metav1.ObjectMeta := {}
  Spec : PodSpec := {}
deriving DecidableEq, Repr

/-- Pod `corev1.Pod`. -/
structure Pod where
  ObjectMeta : metav1.ObjectMeta := {}
  Spec : PodSpec := {}
deriving DecidableEq, Repr

/-- Config data `corev1.ConfigMap`. -/
structure ConfigMap where
  ObjectMeta : metav1.ObjectMeta := {}
  Data : MapRef := none
deriving DecidableEq, Repr

/-- Host path source `corev1.HostPathVolumeSource`; `Type_` is the Go field
`Type` of type `*HostPathType`. -/
structure HostPathVolumeSource where
  Path : String := ""
  Type_ : Option String := none
deriving DecidableEq, Repr

/-- Secret source `corev1.SecretVolumeSource`. -/
structure SecretVolumeSource where
  SecretName : String := ""
  DefaultMode : Option Int := none
deriving DecidableEq, Repr

/-- Config-map source `corev1.ConfigMapVolumeSource`; `Name` is the embedded
`LocalObjectReference.Name`. -/
structure ConfigMapVolumeSource where
  Name : String := ""
  DefaultMode : Option Int := none
deriving DecidableEq, Repr

/-- Claim source `corev1.PersistentVolumeClaimVolumeSource`. -/
structure PersistentVolumeClaimVolumeSource where
  ClaimName : String := ""
deriving DecidableEq, Repr

/-- Empty-dir source `corev1.EmptyDirVolumeSource`. -/
structure EmptyDirVolumeSource where
  Medium : String := ""
  SizeLimit : Option String := none
deriving DecidableEq, Repr

/-- Projected source `corev1.ProjectedVolumeSource`. -/
structure ProjectedVolumeSource where
  Sources : List String := []
  DefaultMode : Option Int := none
deriving DecidableEq, Repr

/-- The union-like `corev1.VolumeSource`: one optional pointer per source kind. -/
structure VolumeSource where
  HostPath : Option HostPathVolumeSource := none
  EmptyDir : Option EmptyDirVolumeSource := none
  Secret : Option SecretVolumeSource := none
  PersistentVolumeClaim : Option PersistentVolumeClaimVolumeSource := none
  ConfigMap : Option ConfigMapVolumeSource := none
  Projected : Option ProjectedVolumeSource := none
deriving DecidableEq, Repr

/-- Volume `corev1.Volume`; `VolumeSource` is embedded in Go. -/
structure Volume where
  Name : String := ""
  VolumeSource : VolumeSource := {}
deriving DecidableEq, Repr

end corev1

namespace batchv1

/-- Job specification `batchv1.JobSpec`. -/
structure JobSpec where
  BackoffLimit : Option Int := none
  Template : corev1.PodTemplateSpec := {}
deriving DecidableEq, Repr

/-- Job `batchv1.Job`. -/
structure Job where
  ObjectMeta : metav1.ObjectMeta := {}
  Spec : JobSpec := {}
deriving DecidableEq, Repr

end batchv1

/-! ## Collaborating builders that are only called through `Build` -/

namespace templatespec

/-- Wrapper `podtemplatespec.PodTemplateSpec` of `kube-helper`; `Object` is a
`*corev1.PodTemplateSpec`. -/
structure PodTemplateSpec where
  Object : Option corev1.PodTemplateSpec
deriving DecidableEq, Repr

/-- The `podtemplatespec.Builder` of `kube-helper`, an external collaborator
used only through `Build() (*PodTemplateSpec, error)`: a builder is
represented by the pair that call returns. -/
structure Builder where
  Build : Option PodTemplateSpec × Option String
deriving DecidableEq, Repr

end templatespec

namespace container

/-- Modelled from the spec: the container builder of package
`kubernetes/container`, whose source is not in the tree. The pod builder
depends only on it "exposing a `Build` operation returning (descriptor,
error-or-nil)"; a builder is represented by the pair that call returns. -/
structure Builder where
  Build : corev1.Container × Option String
deriving DecidableEq, Repr

/-- Modelled from the spec: the method call `containerBuilder.Build()` through
a `*container.Builder`. Finalization inspects the receiver's error list, so a
nil receiver is a nil-pointer dereference (`none`). -/
def Build (containerBuilder : Option Builder) : Option (corev1.Container × Option String) :=
  match containerBuilder with
  | none => none
  | some cb => some cb.Build

end container

/-! ## Package `job` (`kubernetes/job/build.go`) -/

namespace job

/-- Modelled from the spec: the wrapper type `job.Job`, declared outside
`build.go`; its field `object *batchv1.Job` is the one `NewBuilder` fills and
the setters write through. -/
structure Job where
  object : batchv1.Job
deriving DecidableEq, Repr

/-- Builder for a Job: the descriptor and the accumulated errors. -/
structure Builder where
  job : Job
  errs : List String
deriving DecidableEq, Repr

/-- Fresh builder: zero-valued descriptor, no errors. -/
def NewBuilder : Builder := { job := { object := {} }, errs := [] }

namespace Builder

/-- Set the Name field. -/
def WithName (b : Builder) (name : String) : Builder :=
  if name.length == 0 then
    { b with errs := b.errs ++ ["Failed to build Job object: missing Job Name"] }
  else
    { b with job.object.ObjectMeta.Name := name }

/-- Set the Namespace field. -/
def WithNamespace (b : Builder) (namespace_ : String) : Builder :=
  if namespace_.length == 0 then
    { b with errs := b.errs ++ ["failed to build Job object: missing namespace"] }
  else
    { b with job.object.ObjectMeta.Namespace := namespace_ }

/-- Merge `labels` into the Labels field, creating the map when it is nil. -/
def WithLabels (h : Heap) (b : Builder) (labels : MapRef) : Heap × Builder :=
  if h.len labels == 0 then
    (h, { b with errs := b.errs ++ ["failed to build Job object: missing labels"] })
  else
    match b.job.object.ObjectMeta.Labels with
    | none =>
      let (h1, a) := h.make
      (h1.rangeAssign a (h1.deref labels), { b with job.object.ObjectMeta.Labels := some a })
    | some dst => (h.rangeAssign dst (h.deref labels), b)

/-- Build the nested template builder and store its template. -/
def WithPodTemplateSpecBuilder (b : Builder) (tmplbuilder : Option templatespec.Builder) :
    Option Builder :=
  match tmplbuilder with
  | none => some { b with errs := b.errs ++ ["failed to build job: nil templatespecbuilder"] }
  | some tb =>
    match tb.Build with
    | (_, some _) => some { b with errs := b.errs ++ ["failed to build job"] }
    | (some { Object := some tmpl }, none) => some { b with job.object.Spec.Template := tmpl }
    | (_, none) => none

/-- Set the BackoffLimit field; `*backoff` is read before any check. -/
def WithBackOffLimit (b : Builder) (backoff : Option Int) : Option Builder :=
  match backoff with
  | none => none
  | some v =>
    if v < 0 then
      some { b with errs := b.errs ++ ["failed to build Job: invalid backofflimit "] }
    else
      some { b with job.object.Spec.BackoffLimit := backoff }

/-- Set the RestartPolicy of the template's pod spec. -/
def WithRestartPolicy (b : Builder) (restartPolicy : String) : Builder :=
  { b with job.object.Spec.Template.Spec.RestartPolicy := restartPolicy }

/-- Finalization: the pointer to the Job (or nil) and the error (or nil). -/
def Build (b : Builder) : Option batchv1.Job × Option String :=
  if b.errs.length > 0 then (none, some (fmtErrs b.errs))
  else (some b.job.object, none)

end Builder

end job

/-! ## Package `jobspec` (`kubernetes/jobspec/build.go`) -/

namespace jobspec

/-- Modelled from the spec: the wrapper type `jobspec.JobSpec`, declared outside
`build.go`; its field `Object *batchv1.JobSpec` is the one `NewBuilder` fills
and the setters write through. -/
structure JobSpec where
  Object : batchv1.JobSpec
deriving DecidableEq, Repr

/-- Builder for a JobSpec. -/
structure Builder where
  jobspec : JobSpec
  errs : List String
deriving DecidableEq, Repr

/-- Fresh builder. -/
def NewBuilder : Builder := { jobspec := { Object := {} }, errs := [] }

namespace Builder

/-- Set the BackoffLimit field; `*backoff` is read before any check. -/
def WithBackOffLimit (b : Builder) (backoff : Option Int) : Option Builder :=
  match backoff with
  | none => none
  | some v =>
    if v < 0 then
      some { b with errs := b.errs ++ ["failed to build Job: invalid backofflimit "] }
    else
      some { b with jobspec.Object.BackoffLimit := backoff }

/-- Build the nested template builder and store its template. -/
def WithPodTemplateSpecBuilder (b : Builder) (tmplbuilder : Option templatespec.Builder) :
    Option Builder :=
  match tmplbuilder with
  | none => some { b with errs := b.errs ++ ["failed to build job: nil templatespecbuilder"] }
  | some tb =>
    match tb.Build with
    | (_, some _) => some { b with errs := b.errs ++ ["failed to build job"] }
    | (some { Object := some tmpl }, none) => some { b with jobspec.Object.Template := tmpl }
    | (_, none) => none

/-- Finalization: the pointer to the wrapper (or nil) and the error (or nil). -/
def Build (b : Builder) : Option JobSpec × Option String :=
  if b.errs.length > 0 then (none, some (fmtErrs b.errs))
  else (some b.jobspec, none)

end Builder

end jobspec

/-! ## Package `pod` (`kubernetes/pod/build.go`) -/

namespace pod

/-- Wrapper `pod.Pod` with `Object *corev1.Pod`. -/
structure Pod where
  Object : corev1.Pod
deriving DecidableEq, Repr

/-- Builder for a Pod. -/
structure Builder where
  pod : Pod
  errs : List String
deriving DecidableEq, Repr

/-- Fresh builder. -/
def NewBuilder : Builder := { pod := { Object := {} }, errs := [] }

namespace Builder

/-- Set the Name field. -/
def WithName (b : Builder) (name : String) : Builder :=
  if name.length == 0 then
    { b with errs := b.errs ++ ["failed to build Pod object: missing Pod name"] }
  else
    { b with pod.Object.ObjectMeta.Name := name }

/-- Set the Namespace field. -/
def WithNamespace (b : Builder) (namespace_ : String) : Builder :=
  if namespace_.length == 0 then
    { b with errs := b.errs ++ ["failed to build Pod object: missing namespace"] }
  else
    { b with pod.Object.ObjectMeta.Namespace := namespace_ }

/-- Merge `labels` into the Labels field, creating the map when it is nil. -/
def WithLabels (h : Heap) (b : Builder) (labels : MapRef) : Heap × Builder :=
  if h.len labels == 0 then
    (h, { b with errs := b.errs ++ ["failed to build pod object: missing labels"] })
  else
    match b.pod.Object.ObjectMeta.Labels with
    | none =>
      let (h1, a) := h.make
      (h1.rangeAssign a (h1.deref labels), { b with pod.Object.ObjectMeta.Labels := some a })
    | some dst => (h.rangeAssign dst (h.deref labels), b)

/-- Set the ServiceAccountName field of the pod spec. -/
def WithServiceAccountName (b : Builder) (serviceaccountname : String) : Builder :=
  if serviceaccountname.length == 0 then
    { b with errs := b.errs ++ ["failed to build Pod object: missing Pod serviceaccountname"] }
  else
    { b with pod.Object.Spec.ServiceAccountName := serviceaccountname }

/-- Set the RestartPolicy field of the pod spec. -/
def WithRestartPolicy (b : Builder) (restartpolicy : String) : Builder :=
  if restartpolicy.length == 0 then
    { b with errs := b.errs ++ ["failed to build Pod object: missing Pod restartpolicy"] }
  else
    { b with pod.Object.Spec.RestartPolicy := restartpolicy }

/-- Build the container builder and append its container. -/
def WithContainerBuilder (b : Builder) (containerBuilder : Option container.Builder) :
    Option Builder :=
  match container.Build containerBuilder with
  | none => none
  | some (_, some err) => some { b with errs := b.errs ++ ["failed to build pod " ++ err] }
  | some (containerObj, none) =>
    some { b with pod.Object.Spec.Containers := b.pod.Object.Spec.Containers ++ [containerObj] }

/-- Finalization: the pointer to the Pod (or nil) and the error (or nil). -/
def Build (b : Builder) : Option corev1.Pod × Option String :=
  if b.errs.length > 0 then (none, some (fmtErrs b.errs))
  else (some b.pod.Object, none)

/-- Replace the Annotations field by a fresh copy of `annotations`. -/
def WithAnnotationsNew (h : Heap) (b : Builder) (annotations : MapRef) : Heap × Builder :=
  if h.len annotations == 0 then
    (h, { b with errs := b.errs ++ ["failed to build pod object: missing annotations"] })
  else
    let (h1, newannotations) := h.make
    (h1.rangeAssign newannotations (h1.deref annotations),
      { b with pod.Object.ObjectMeta.Annotations := some newannotations })

/-- Merge `annotations` into the existing Annotations, if any. -/
def WithAnnotations (h : Heap) (b : Builder) (annotations : MapRef) : Heap × Builder :=
  if h.len annotations == 0 then
    (h, { b with errs := b.errs ++ ["failed to build pod object: missing annotations"] })
  else
    match b.pod.Object.ObjectMeta.Annotations with
    | none => WithAnnotationsNew h b annotations
    | some dst => (h.rangeAssign dst (h.deref annotations), b)

end Builder

end pod

/-! ## Package `v1alpha1` of `kubernetes/volume` (`kubernetes/volume/v1alpha1/build.go`) -/

namespace volume

/-- Modelled from the spec: the wrapper type `Volume` of the volume package,
declared outside `build.go`; its field `object *corev1.Volume` is the one
`NewBuilder` fills and the setters write through. -/
structure Volume where
  object : corev1.Volume
deriving DecidableEq, Repr

/-- Builder for a Volume. -/
structure Builder where
  volume : Volume
  errs : List String
deriving DecidableEq, Repr

/-- Fresh builder. -/
def NewBuilder : Builder := { volume := { object := {} }, errs := [] }

namespace Builder

/-- Set the Name field. -/
def WithName (b : Builder) (name : String) : Builder :=
  if name.length == 0 then
    { b with errs := b.errs ++ ["failed to build Volume object: missing Volume name"] }
  else
    { b with volume.object.Name := name }

/-- Set the source to a host path. -/
def WithHostDirectory (b : Builder) (path : String) : Builder :=
  if path.length == 0 then
    { b with errs := b.errs ++ ["failed to build volume object: missing volume path"] }
  else
    let volumeSource : corev1.VolumeSource := { HostPath := some { Path := path } }
    { b with volume.object.VolumeSource := volumeSource }

/-- Set name and source to a secret. -/
def WithSecret (b : Builder) (secretName : String) (defaultMode : Option Int) : Builder :=
  if secretName.length == 0 then
    { b with errs := b.errs ++ ["failed to build volume object: missing secretName"] }
  else
    let defaultMode : Option Int := match defaultMode with
      | none => some 420
      | some k => some k
    let volumeSource : corev1.VolumeSource :=
      { Secret := some { SecretName := secretName, DefaultMode := defaultMode } }
    { b with volume.object.Name := secretName, volume.object.VolumeSource := volumeSource }

/-- Set name and source to a config map. -/
def WithConfigMap (b : Builder) (configMapName : String) (defaultMode : Option Int) : Builder :=
  if configMapName.length == 0 then
    { b with errs := b.errs ++ ["failed to build volume object: nil configMapName"] }
  else
    let defaultMode : Option Int := match defaultMode with
      | none => some 420
      | some k => some k
    let volumeSource : corev1.VolumeSource :=
      { ConfigMap := some { DefaultMode := defaultMode, Name := configMapName } }
    { b with volume.object.VolumeSource := volumeSource, volume.object.Name := configMapName }

/-- Set the source to a host path with a type. -/
def WithHostPathAndType (b : Builder) (dirpath : String) (dirtype : Option String) : Builder :=
  match dirtype with
  | none => { b with errs := b.errs ++ ["failed to build volume object: nil volume type"] }
  | some newdirtype =>
    if dirpath.length == 0 then
      { b with errs := b.errs ++ ["failed to build volume object: missing volume path"] }
    else
      let volumeSource : corev1.VolumeSource :=
        { HostPath := some { Path := dirpath, Type_ := some newdirtype } }
      { b with volume.object.VolumeSource := volumeSource }

/-- Set the source to a persistent volume claim. -/
def WithPVCSource (b : Builder) (pvcName : String) : Builder :=
  if pvcName.length == 0 then
    { b with errs := b.errs ++ ["failed to build volume object: missing pvc name"] }
  else
    let volumeSource : corev1.VolumeSource :=
      { PersistentVolumeClaim := some { ClaimName := pvcName } }
    { b with volume.object.VolumeSource := volumeSource }

/-- Set the EmptyDir field of the source. -/
def WithEmptyDir (b : Builder) (dir : Option corev1.EmptyDirVolumeSource) : Builder :=
  match dir with
  | none => { b with errs := b.errs ++ ["failed to build volume object: nil dir"] }
  | some newdir => { b with volume.object.VolumeSource.EmptyDir := some newdir }

/-- Set name and source to a projected volume. -/
def WithProjectedVolumes (b : Builder) (name : String)
    (projectedVolumes : Option corev1.ProjectedVolumeSource) : Builder :=
  match projectedVolumes with
  | none => { b with errs := b.errs ++ ["failed to build volume object: nil projectedVolumes"] }
  | some pv =>
    let volumeSource : corev1.VolumeSource := { Projected := some pv }
    { b with volume.object.VolumeSource := volumeSource, volume.object.Name := name }

/-- Finalization: the pointer to the Volume and the error (or nil). -/
def Build (b : Builder) : Option corev1.Volume × Option String :=
  if b.errs.length != 0 then
    (some b.volume.object,
      some ("failed to validate: build errors were found: " ++ fmtErrs b.errs))
  else (some b.volume.object, none)

end Builder

end volume

/-! ## Package `configmap` (`kubernetes/configmap/build.go`, `configMap.go`) -/

namespace configmap

/-- Wrapper `configmap.ConfigMap` with `object *corev1.ConfigMap`. -/
structure ConfigMap where
  object : corev1.ConfigMap
deriving DecidableEq, Repr

/-- Builder for a ConfigMap. -/
structure Builder where
  configMap : ConfigMap
  errs : List String
deriving DecidableEq, Repr

/-- Fresh builder. -/
def NewBuilder : Builder := { configMap := { object := {} }, errs := [] }

namespace Builder

/-- Store `labels` as the Labels field. -/
def WithLabels (h : Heap) (b : Builder) (labels : MapRef) : Heap × Builder :=
  if h.len labels == 0 then
    (h, { b with errs := b.errs ++ ["Failed to build ConfigMap object: missing Labels"] })
  else
    (h, { b with configMap.object.ObjectMeta.Labels := labels })

/-- Set the Name field. -/
def WithName (b : Builder) (name : String) : Builder :=
  if name.length == 0 then
    { b with errs := b.errs ++ ["Failed to build ConfigMap object: missing ConfigMap Name"] }
  else
    { b with configMap.object.ObjectMeta.Name := name }

/-- Store `data` as the Data field. -/
def WithData (h : Heap) (b : Builder) (data : MapRef) : Heap × Builder :=
  if h.len data == 0 then
    (h, { b with errs := b.errs ++ ["Failed to build ConfigMap object: missing Data"] })
  else
    (h, { b with configMap.object.Data := data })

/-- Finalization: the pointer to the ConfigMap (or nil) and the error (or nil). -/
def Build (b : Builder) : Option corev1.ConfigMap × Option String :=
  if b.errs.length > 0 then (none, some (fmtErrs b.errs))
  else (some b.configMap.object, none)

end Builder

end configmap

/-! ## Package `configMap` (`kubernetes/configMap/build.go`)

The older copy of the config-map builder: the same code without `WithLabels`.
Its wrapper type is declared like the one of package `configmap`. -/

namespace configMap

/-- Modelled from the spec: the wrapper type `configMap.ConfigMap`, declared
outside `build.go`; its field `object *corev1.ConfigMap` is the one
`NewBuilder` fills and the setters write through. -/
structure ConfigMap where
  object : corev1.ConfigMap
deriving DecidableEq, Repr

/-- Builder for a ConfigMap. -/
structure Builder where
  configMap : ConfigMap
  errs : List String
deriving DecidableEq, Repr

/-- Fresh builder. -/
def NewBuilder : Builder := { configMap := { object := {} }, errs := [] }

namespace Builder

/-- Set the Name field. -/
def WithName (b : Builder) (name : String) : Builder :=
  if name.length == 0 then
    { b with errs := b.errs ++ ["Failed to build ConfigMap object: missing ConfigMap Name"] }
  else
    { b with configMap.object.ObjectMeta.Name := name }

/-- Store `data` as the Data field. -/
def WithData (h : Heap) (b : Builder) (data : MapRef) : Heap × Builder :=
  if h.len data == 0 then
    (h, { b with errs := b.errs ++ ["Failed to build ConfigMap object: missing Data"] })
  else
    (h, { b with configMap.object.Data := data })

/-- Finalization: the pointer to the ConfigMap (or nil) and the error (or nil). -/
def Build (b : Builder) : Option corev1.ConfigMap × Option String :=
  if b.errs.length > 0 then (none, some (fmtErrs b.errs))
  else (some b.configMap.object, none)

end Builder

end configMap

/-! ## Properties stated about the builders -/

/-- Contract of finalization, for a builder with error list `errs` and
descriptor `d` whose `Build` returned the pair `r`: `Build` fails exactly when
`errs` is non-empty; the failure message is `pre` followed by the rendering of
the whole list, so every recorded message occurs in it; with no recorded error
the result is the descriptor itself and no error. -/
def Finalizes {D : Type} (pre : String) (errs : List String) (d : D)
    (r : Option D × Option String) : Prop :=
  (r.2 ≠ none ↔ errs ≠ []) ∧
  (errs ≠ [] → r.2 = some (pre ++ fmtErrs errs)) ∧
  (∀ e ∈ errs, ∃ msg, r.2 = some msg ∧ containsText msg e) ∧
  (errs = [] → r = (some d, none))

/-- Outcome of `Build` that never hands out a descriptor together with an
error: either the descriptor `d` and no error, with an empty error list, or a
nil descriptor and an error, with a non-empty error list. -/
def NeverBoth {D : Type} (errs : List String) (d : D) (r : Option D × Option String) : Prop :=
  (r = (some d, none) ∧ errs = []) ∨ (r.1 = none ∧ r.2 ≠ none ∧ errs ≠ [])

/-- A setter call that only records the error `msg`: taking the builder from
state `b` to `b'`, it leaves the descriptor as it was, makes `msg` the one new,
last element of the error list, and a `Build` that follows fails with a
message containing `msg`. -/
def RecordsOnly {B D : Type} (errs : B → List String) (desc : B → D)
    (build : B → Option D × Option String) (b b' : B) (msg : String) : Prop :=
  desc b' = desc b ∧ errs b' = errs b ++ [msg] ∧
    ∃ m, (build b').2 = some m ∧ containsText m msg

/-! ## Chains of setter calls -/

/-- Run a chain of calls from left to right; `none` as soon as a call panics. -/
def runChain {C S : Type} (step : S → C → Option S) : S → List C → Option S
  | s, [] => some s
  | s, c :: cs =>
    match step s c with
    | none => none
    | some s1 => runChain step s1 cs

/-- Records owed along a chain: for each call in order, the message (if any)
that `verdict` gives for the call's input in the state in which the call is
made. Nothing is owed after a call that panics. -/
def owedErrs {C S : Type} (step : S → C → Option S) (verdict : S → C → Option String) :
    S → List C → List String
  | _, [] => []
  | s, c :: cs =>
    (verdict s c).toList ++
      (match step s c with
       | none => []
       | some s1 => owedErrs step verdict s1 cs)

namespace job

/-- One setter call on a Job builder, with its arguments. -/
inductive Call where
  | WithName (name : String)
  | WithNamespace (namespace_ : String)
  | WithLabels (labels : MapRef)
  | WithPodTemplateSpecBuilder (tmplbuilder : Option templatespec.Builder)
  | WithBackOffLimit (backoff : Option Int)
  | WithRestartPolicy (restartPolicy : String)
deriving DecidableEq, Repr

/-- Perform the call on heap and builder. -/
def Call.step (s : Heap × Builder) : Call → Option (Heap × Builder)
  | .WithName name => some (s.1, s.2.WithName name)
  | .WithNamespace namespace_ => some (s.1, s.2.WithNamespace namespace_)
  | .WithLabels labels => some (Builder.WithLabels s.1 s.2 labels)
  | .WithPodTemplateSpecBuilder tmplbuilder =>
    (s.2.WithPodTemplateSpecBuilder tmplbuilder).map (fun b => (s.1, b))
  | .WithBackOffLimit backoff => (s.2.WithBackOffLimit backoff).map (fun b => (s.1, b))
  | .WithRestartPolicy restartPolicy => some (s.1, s.2.WithRestartPolicy restartPolicy)

/-- Validation of the call's input: the message to record when the input is
rejected; `none` when it is accepted, when the setter validates nothing
(`WithRestartPolicy`), or when the call panics before any check. -/
def Call.verdict (s : Heap × Builder) : Call → Option String
  | .WithName name =>
    if name = "" then some "Failed to build Job object: missing Job Name" else none
  | .WithNamespace namespace_ =>
    if namespace_ = "" then some "failed to build Job object: missing namespace" else none
  | .WithLabels labels =>
    if s.1.deref labels = [] then some "failed to build Job object: missing labels" else none
  | .WithPodTemplateSpecBuilder none => some "failed to build job: nil templatespecbuilder"
  | .WithPodTemplateSpecBuilder (some tb) =>
    if tb.Build.2.isSome then some "failed to build job" else none
  | .WithBackOffLimit none => none
  | .WithBackOffLimit (some v) =>
    if v < 0 then some "failed to build Job: invalid backofflimit " else none
  | .WithRestartPolicy _ => none

end job

namespace jobspec

/-- One setter call on a JobSpec builder, with its arguments. -/
inductive Call where
  | WithBackOffLimit (backoff : Option Int)
  | WithPodTemplateSpecBuilder (tmplbuilder : Option templatespec.Builder)
deriving DecidableEq, Repr

/-- Perform the call. -/
def Call.step (b : Builder) : Call → Option Builder
  | .WithBackOffLimit backoff => b.WithBackOffLimit backoff
  | .WithPodTemplateSpecBuilder tmplbuilder => b.WithPodTemplateSpecBuilder tmplbuilder

/-- Validation of the call's input: the message to record when it is rejected;
`none` when it is accepted or when the call panics before any check. -/
def Call.verdict (_ : Builder) : Call → Option String
  | .WithBackOffLimit none => none
  | .WithBackOffLimit (some v) =>
    if v < 0 then some "failed to build Job: invalid backofflimit " else none
  | .WithPodTemplateSpecBuilder none => some "failed to build job: nil templatespecbuilder"
  | .WithPodTemplateSpecBuilder (some tb) =>
    if tb.Build.2.isSome then some "failed to build job" else none

end jobspec

namespace pod

/-- One setter call on a Pod builder, with its arguments. -/
inductive Call where
  | WithName (name : String)
  | WithNamespace (namespace_ : String)
  | WithLabels (labels : MapRef)
  | WithServiceAccountName (serviceaccountname : String)
  | WithRestartPolicy (restartpolicy : String)
  | WithContainerBuilder (containerBuilder : Option container.Builder)
  | WithAnnotations (annotations : MapRef)
  | WithAnnotationsNew (annotations : MapRef)
deriving DecidableEq, Repr

/-- Perform the call on heap and builder. -/
def Call.step (s : Heap × Builder) : Call → Option (Heap × Builder)
  | .WithName name => some (s.1, s.2.WithName name)
  | .WithNamespace namespace_ => some (s.1, s.2.WithNamespace namespace_)
  | .WithLabels labels => some (Builder.WithLabels s.1 s.2 labels)
  | .WithServiceAccountName serviceaccountname =>
    some (s.1, s.2.WithServiceAccountName serviceaccountname)
  | .WithRestartPolicy restartpolicy => some (s.1, s.2.WithRestartPolicy restartpolicy)
  | .WithContainerBuilder containerBuilder =>
    (s.2.WithContainerBuilder containerBuilder).map (fun b => (s.1, b))
  | .WithAnnotations annotations => some (Builder.WithAnnotations s.1 s.2 annotations)
  | .WithAnnotationsNew annotations => some (Builder.WithAnnotationsNew s.1 s.2 annotations)

/-- Validation of the call's input: the message to record when it is rejected;
`none` when it is accepted or when the call panics before any check. -/
def Call.verdict (s : Heap × Builder) : Call → Option String
  | .WithName name =>
    if name = "" then some "failed to build Pod object: missing Pod name" else none
  | .WithNamespace namespace_ =>
    if namespace_ = "" then some "failed to build Pod object: missing namespace" else none
  | .WithLabels labels =>
    if s.1.deref labels = [] then some "failed to build pod object: missing labels" else none
  | .WithServiceAccountName serviceaccountname =>
    if serviceaccountname = "" then
      some "failed to build Pod object: missing Pod serviceaccountname"
    else none
  | .WithRestartPolicy restartpolicy =>
    if restartpolicy = "" then some "failed to build Pod object: missing Pod restartpolicy"
    else none
  | .WithContainerBuilder none => none
  | .WithContainerBuilder (some cb) =>
    match cb.Build.2 with
    | some err => some ("failed to build pod " ++ err)
    | none => none
  | .WithAnnotations annotations =>
    if s.1.deref annotations = [] then some "failed to build pod object: missing annotations"
    else none
  | .WithAnnotationsNew annotations =>
    if s.1.deref annotations = [] then some "failed to build pod object: missing annotations"
    else none

end pod

namespace volume

/-- One setter call on a Volume builder, with its arguments. -/
inductive Call where
  | WithName (name : String)
  | WithHostDirectory (path : String)
  | WithSecret (secretName : String) (defaultMode : Option Int)
  | WithConfigMap (configMapName : String) (defaultMode : Option Int)
  | WithHostPathAndType (dirpath : String) (dirtype : Option String)
  | WithPVCSource (pvcName : String)
  | WithEmptyDir (dir : Option corev1.EmptyDirVolumeSource)
  | WithProjectedVolumes (name : String) (projectedVolumes : Option corev1.ProjectedVolumeSource)
deriving DecidableEq, Repr

/-- Perform the call. -/
def Call.step (b : Builder) : Call → Option Builder
  | .WithName name => some (b.WithName name)
  | .WithHostDirectory path => some (b.WithHostDirectory path)
  | .WithSecret secretName defaultMode => some (b.WithSecret secretName defaultMode)
  | .WithConfigMap configMapName defaultMode => some (b.WithConfigMap configMapName defaultMode)
  | .WithHostPathAndType dirpath dirtype => some (b.WithHostPathAndType dirpath dirtype)
  | .WithPVCSource pvcName => some (b.WithPVCSource pvcName)
  | .WithEmptyDir dir => some (b.WithEmptyDir dir)
  | .WithProjectedVolumes name projectedVolumes =>
    some (b.WithProjectedVolumes name projectedVolumes)

/-- Validation of the call's input: the message to record when it is rejected;
the name given to `WithProjectedVolumes` is not validated. -/
def Call.verdict (_ : Builder) : Call → Option String
  | .WithName name =>
    if name = "" then some "failed to build Volume object: missing Volume name" else none
  | .WithHostDirectory path =>
    if path = "" then some "failed to build volume object: missing volume path" else none
  | .WithSecret secretName _ =>
    if secretName = "" then some "failed to build volume object: missing secretName" else none
  | .WithConfigMap configMapName _ =>
    if configMapName = "" then some "failed to build volume object: nil configMapName"
    else none
  | .WithHostPathAndType _ none => some "failed to build volume object: nil volume type"
  | .WithHostPathAndType dirpath (some _) =>
    if dirpath = "" then some "failed to build volume object: missing volume path" else none
  | .WithPVCSource pvcName =>
    if pvcName = "" then some "failed to build volume object: missing pvc name" else none
  | .WithEmptyDir none => some "failed to build volume object: nil dir"
  | .WithEmptyDir (some _) => none
  | .WithProjectedVolumes _ none => some "failed to build volume object: nil projectedVolumes"
  | .WithProjectedVolumes _ (some _) => none

end volume

namespace configmap

/-- One setter call on a ConfigMap builder, with its arguments. -/
inductive Call where
  | WithLabels (labels : MapRef)
  | WithName (name : String)
  | WithData (data : MapRef)
deriving DecidableEq, Repr

/-- Perform the call on heap and builder. -/
def Call.step (s : Heap × Builder) : Call → Option (Heap × Builder)
  | .WithLabels labels => some (Builder.WithLabels s.1 s.2 labels)
  | .WithName name => some (s.1, s.2.WithName name)
  | .WithData data => some (Builder.WithData s.1 s.2 data)

/-- Validation of the call's input: the message to record when it is rejected. -/
def Call.verdict (s : Heap × Builder) : Call → Option String
  | .WithLabels labels =>
    if s.1.deref labels = [] then some "Failed to build ConfigMap object: missing Labels"
    else none
  | .WithName name =>
    if name = "" then some "Failed to build ConfigMap object: missing ConfigMap Name" else none
  | .WithData data =>
    if s.1.deref data = [] then some "Failed to build ConfigMap object: missing Data" else none

end configmap

namespace configMap

/-- One setter call on a ConfigMap builder of the older package. -/
inductive Call where
  | WithName (name : String)
  | WithData (data : MapRef)
deriving DecidableEq, Repr

/-- Perform the call on heap and builder. -/
def Call.step (s : Heap × Builder) : Call → Option (Heap × Builder)
  | .WithName name => some (s.1, s.2.WithName name)
  | .WithData data => some (Builder.WithData s.1 s.2 data)

/-- Validation of the call's input: the message to record when it is rejected. -/
def Call.verdict (s : Heap × Builder) : Call → Option String
  | .WithName name =>
    if name = "" then some "Failed to build ConfigMap object: missing ConfigMap Name" else none
  | .WithData data =>
    if s.1.deref data = [] then some "Failed to build ConfigMap object: missing Data" else none

end configMap

/-- The nested `Build` reports no error and yet hands out a nil wrapper or a
wrapper with a nil `Object`: the setter dereferences it. -/
def templatespec.Builder.buildsNil (tb : templatespec.Builder) : Bool :=
  match tb.Build with
  | (_, some _) => false
  | (some { Object := some _ }, none) => false
  | (_, none) => true

/-- Calls on a Job builder that end in a nil-pointer dereference. -/
def job.Call.panics : job.Call → Bool
  | .WithBackOffLimit none => true
  | .WithPodTemplateSpecBuilder (some tb) => tb.buildsNil
  | _ => false

/-- Calls on a JobSpec builder that end in a nil-pointer dereference. -/
def jobspec.Call.panics : jobspec.Call → Bool
  | .WithBackOffLimit none => true
  | .WithPodTemplateSpecBuilder (some tb) => tb.buildsNil
  | _ => false

/-- Calls on a Pod builder that end in a nil-pointer dereference. -/
def pod.Call.panics : pod.Call → Bool
  | .WithContainerBuilder none => true
  | _ => false

/-- A chain reaches its end exactly when none of its calls is one of the
calls singled out by `panics`. -/
def ReachesEndIff {C S : Type} (step : S → C → Option S) (panics : C → Bool) : Prop :=
  ∀ s calls, (runChain step s calls).isSome = calls.all (fun c => !panics c)

/-- Error accumulation of a builder kind with setter calls `step`, input
validation `verdict` and error list `errs`: a call that returns extends the
error list by the record its input owes (one element at the end for rejected
input, nothing for accepted input), and after a chain that runs to its end the
error list is the initial list followed by the owed records in call order. -/
def Accumulates {C S : Type} (step : S → C → Option S) (verdict : S → C → Option String)
    (errs : S → List String) : Prop :=
  (∀ s c s', step s c = some s' → errs s' = errs s ++ (verdict s c).toList) ∧
  (∀ s calls s', runChain step s calls = some s' →
    errs s' = errs s ++ owedErrs step verdict s calls)

/-- No call of the kind panics: every chain runs to its end. -/
def NeverPanics {C S : Type} (step : S → C → Option S) : Prop :=
  ∀ s calls, (runChain step s calls).isSome = true

/-- The map `result` is `old` overlaid with `m`: a key of `m` has the value
it has in `m`, any other key has what it has in `old` (nothing, if absent
there too). -/
def Overlays (old m result : GoMap) : Prop :=
  ∀ k, result.get k = match m.get k with
    | some v => some v
    | none => old.get k

/-- Effect of an additive map setter on a map field: the field held `old` in
heap `h`, the argument was `m`, afterwards the heap is `h'` and the field holds
`new`. The field is non-nil and allocated; it is the map it was before, or a
newly allocated one if it was nil; its content is the old content (empty for
nil) overlaid with `m`; every other map of the heap is untouched. -/
def MergesInto (h : Heap) (old m : MapRef) (h' : Heap) (new : MapRef) : Prop :=
  ∃ d, new = some d ∧ d < h'.cells.length ∧
    (∀ a, old = some a → d = a) ∧ (old = none → d = h.cells.length) ∧
    Overlays (h.deref old) (h.deref m) (h'.read d) ∧
    (∀ x, x ≠ d → h'.read x = h.read x)

/-- The field value `new` (read in heap `h'`) is a copy of the argument `m`
(read in heap `h`): it has the content of `m`, and it is not the map `m`
itself. -/
def StoresCopy (h : Heap) (m : MapRef) (h' : Heap) (new : MapRef) : Prop :=
  new ≠ m ∧ ∀ k, (h'.deref new).get k = (h.deref m).get k

/-- The call is a `WithData` call. -/
def configmap.Call.isWithData : configmap.Call → Bool
  | .WithData _ => true
  | _ => false

/-- The outcome of `Build` the config-data scenario without `WithData` expects:
no descriptor, and an error whose message mentions the missing Data. -/
def FailsForMissingData (r : Option corev1.ConfigMap × Option String) : Prop :=
  r.1 = none ∧ ∃ msg, r.2 = some msg ∧ containsText msg "missing Data"

/-! ## Order of setter calls -/

/-- Position of the setter a Job call belongs to, in source order. -/
def job.Call.setter : job.Call → Nat
  | .WithName _ => 0
  | .WithNamespace _ => 1
  | .WithLabels _ => 2
  | .WithPodTemplateSpecBuilder _ => 3
  | .WithBackOffLimit _ => 4
  | .WithRestartPolicy _ => 5

/-- The template builder builds successfully: a template and no error. -/
def templatespec.Builder.succeeds (tb : templatespec.Builder) : Bool :=
  match tb.Build with
  | (some { Object := some _ }, none) => true
  | _ => false

/-- The call is one of the Job setters that do not merge maps, with valid,
non-empty input: a non-empty name, namespace or policy, a non-negative backoff
limit, a template builder that builds successfully. -/
def job.Call.validPlain : job.Call → Bool
  | .WithName name => decide (name ≠ "")
  | .WithNamespace namespace_ => decide (namespace_ ≠ "")
  | .WithLabels _ => false
  | .WithPodTemplateSpecBuilder none => false
  | .WithPodTemplateSpecBuilder (some tb) => tb.succeeds
  | .WithBackOffLimit none => false
  | .WithBackOffLimit (some v) => decide (0 ≤ v)
  | .WithRestartPolicy restartPolicy => decide (restartPolicy ≠ "")

/-- One of the two calls is `WithRestartPolicy`, the other
`WithPodTemplateSpecBuilder`. -/
def job.Call.policyWithTemplate (c1 c2 : job.Call) : Bool :=
  (c1.setter == 5 && c2.setter == 3) || (c1.setter == 3 && c2.setter == 5)

/-- The two Job calls give the same result of `Build` in either order, and the
chain returns. -/
def job.CommuteOnBuild (s : Heap × job.Builder) (c1 c2 : job.Call) : Prop :=
  (runChain job.Call.step s [c1, c2]).map (fun x => x.2.Build) =
    (runChain job.Call.step s [c2, c1]).map (fun x => x.2.Build) ∧
  (runChain job.Call.step s [c1, c2]).isSome = true

/-- Position of the setter a Pod call belongs to, in source order. -/
def pod.Call.setter : pod.Call → Nat
  | .WithName _ => 0
  | .WithNamespace _ => 1
  | .WithLabels _ => 2
  | .WithServiceAccountName _ => 3
  | .WithRestartPolicy _ => 4
  | .WithContainerBuilder _ => 5
  | .WithAnnotations _ => 6
  | .WithAnnotationsNew _ => 7

/-- The call is one of the Pod setters that do not merge maps or append
containers, with valid, non-empty input in heap `h`. -/
def pod.Call.validPlain (h : Heap) : pod.Call → Bool
  | .WithName name => decide (name ≠ "")
  | .WithNamespace namespace_ => decide (namespace_ ≠ "")
  | .WithLabels _ => false
  | .WithServiceAccountName serviceaccountname => decide (serviceaccountname ≠ "")
  | .WithRestartPolicy restartpolicy => decide (restartpolicy ≠ "")
  | .WithContainerBuilder _ => false
  | .WithAnnotations _ => false
  | .WithAnnotationsNew annotations => decide (h.deref annotations ≠ [])

/-! ## Messages of the Job builder -/

/-- Messages the Job setters record for rejected field values and for a nil
template builder. -/
def job.fieldMessages : List String :=
  ["Failed to build Job object: missing Job Name",
   "failed to build Job object: missing namespace",
   "failed to build Job object: missing labels",
   "failed to build Job: invalid backofflimit ",
   "failed to build job: nil templatespecbuilder"]

/-- Message `WithPodTemplateSpecBuilder` records when the nested `Build` fails. -/
def job.wrapMessage : String := "failed to build job"

/-- All messages a Job setter can record. -/
def job.messages : List String := job.wrapMessage :: job.fieldMessages

/-- Check on a finite set of messages under which a blank-separated rendering
of a list of them can be read back: no message is empty, no message followed
by a blank starts another message, and no message followed by a blank starts
a different message followed by a blank. -/
def separable (M : List String) : Bool :=
  M.all fun a => !a.data.isEmpty && M.all fun b =>
    !(b.data ++ [' ']).isPrefixOf a.data &&
      (a == b || !(a.data ++ [' ']).isPrefixOf (b.data ++ [' ']))

/-! ## Theorems -/

/-! ### Strings and error lists -/

theorem length_eq_zero_iff (s : String) : s.length = 0 ↔ s = "" := by
  constructor
  · intro h
    apply String.ext
    have hd : s.data.length = 0 := h
    exact List.length_eq_zero.mp hd
  · rintro rfl
    rfl

theorem length_beq_zero_iff (s : String) : (s.length == 0) = true ↔ s = "" := by
  rw [beq_iff_eq]
  exact length_eq_zero_iff s

theorem length_beq_zero_of_ne {s : String} (hs : s ≠ "") : (s.length == 0) = false := by
  cases hb : (s.length == 0)
  · rfl
  · exact absurd ((length_beq_zero_iff s).mp hb) hs

theorem containsText_refl (s : String) : containsText s s :=
  ⟨"", "", by rw [String.empty_append, String.append_empty]⟩

theorem containsText_prepend {msg sub : String} (p : String) (hc : containsText msg sub) :
    containsText (p ++ msg) sub := by
  obtain ⟨pre, post, rfl⟩ := hc
  exact ⟨p ++ pre, post, by simp only [String.append_assoc]⟩

theorem containsText_append {msg sub : String} (q : String) (hc : containsText msg sub) :
    containsText (msg ++ q) sub := by
  obtain ⟨pre, post, rfl⟩ := hc
  exact ⟨pre, post ++ q, by simp only [String.append_assoc]⟩

theorem joinErrs_cons_cons (e e' : String) (es : List String) :
    joinErrs (e :: e' :: es) = e ++ " " ++ joinErrs (e' :: es) := rfl

theorem containsText_joinErrs {errs : List String} {e : String} (he : e ∈ errs) :
    containsText (joinErrs errs) e := by
  induction errs with
  | nil => cases he
  | cons x xs ih =>
    cases xs with
    | nil =>
      have hx : e = x := by simpa using he
      subst hx
      exact containsText_refl _
    | cons y ys =>
      rw [joinErrs_cons_cons]
      rcases List.mem_cons.mp he with hx | hx
      · subst hx
        exact ⟨"", " " ++ joinErrs (y :: ys), by
          rw [String.empty_append, String.append_assoc]⟩
      · exact containsText_prepend (x ++ " ") (ih hx)

theorem containsText_fmtErrs {errs : List String} {e : String} (he : e ∈ errs) :
    containsText (fmtErrs errs) e :=
  containsText_append "]" (containsText_prepend "[" (containsText_joinErrs he))

/-- Shape shared by the five `Build` methods: `onFail` is the descriptor
pointer handed out next to the error. -/
theorem finalizes_ite {D : Type} (pre : String) (errs : List String) (d : D)
    (onFail : Option D) :
    (errs ≠ [] → Finalizes pre errs d (onFail, some (pre ++ fmtErrs errs))) ∧
    (errs = [] → Finalizes pre errs d (some d, none)) := by
  constructor
  · intro hne
    refine ⟨by simp [hne], fun _ => rfl, ?_, fun h => absurd h hne⟩
    intro e he
    exact ⟨_, rfl, containsText_prepend pre (containsText_fmtErrs he)⟩
  · intro hnil
    subst hnil
    refine ⟨by simp, fun h => absurd rfl h, ?_, fun _ => rfl⟩
    intro e he
    cases he

theorem length_pos_iff_ne_nil (errs : List String) : errs.length > 0 ↔ errs ≠ [] := by
  cases errs <;> simp

/-! ### Finalization of each builder kind -/

theorem configmap_finalizes (b : configmap.Builder) :
    Finalizes "" b.errs b.configMap.object b.Build := by
  by_cases hne : b.errs = []
  · have h := (finalizes_ite "" b.errs b.configMap.object none).2 hne
    simpa [configmap.Builder.Build, hne] using h
  · have h := (finalizes_ite "" b.errs b.configMap.object none).1 hne
    simpa [configmap.Builder.Build, hne, (length_pos_iff_ne_nil b.errs).mpr hne] using h

theorem configMap_finalizes (b : configMap.Builder) :
    Finalizes "" b.errs b.configMap.object b.Build := by
  by_cases hne : b.errs = []
  · have h := (finalizes_ite "" b.errs b.configMap.object none).2 hne
    simpa [configMap.Builder.Build, hne] using h
  · have h := (finalizes_ite "" b.errs b.configMap.object none).1 hne
    simpa [configMap.Builder.Build, hne, (length_pos_iff_ne_nil b.errs).mpr hne] using h

theorem job_finalizes (b : job.Builder) :
    Finalizes "" b.errs b.job.object b.Build := by
  by_cases hne : b.errs = []
  · have h := (finalizes_ite "" b.errs b.job.object none).2 hne
    simpa [job.Builder.Build, hne] using h
  · have h := (finalizes_ite "" b.errs b.job.object none).1 hne
    simpa [job.Builder.Build, hne, (length_pos_iff_ne_nil b.errs).mpr hne] using h

theorem jobspec_finalizes (b : jobspec.Builder) :
    Finalizes "" b.errs b.jobspec b.Build := by
  by_cases hne : b.errs = []
  · have h := (finalizes_ite "" b.errs b.jobspec none).2 hne
    simpa [jobspec.Builder.Build, hne] using h
  · have h := (finalizes_ite "" b.errs b.jobspec none).1 hne
    simpa [jobspec.Builder.Build, hne, (length_pos_iff_ne_nil b.errs).mpr hne] using h

theorem pod_finalizes (b : pod.Builder) :
    Finalizes "" b.errs b.pod.Object b.Build := by
  by_cases hne : b.errs = []
  · have h := (finalizes_ite "" b.errs b.pod.Object none).2 hne
    simpa [pod.Builder.Build, hne] using h
  · have h := (finalizes_ite "" b.errs b.pod.Object none).1 hne
    simpa [pod.Builder.Build, hne, (length_pos_iff_ne_nil b.errs).mpr hne] using h

theorem volume_finalizes (b : volume.Builder) :
    Finalizes "failed to validate: build errors were found: " b.errs b.volume.object b.Build := by
  by_cases hne : b.errs = []
  · have h := (finalizes_ite "failed to validate: build errors were found: " b.errs b.volume.object (some b.volume.object)).2 hne
    simpa [volume.Builder.Build, hne] using h
  · have h := (finalizes_ite "failed to validate: build errors were found: " b.errs b.volume.object (some b.volume.object)).1 hne
    simpa [volume.Builder.Build, hne] using h

/-! ### C1: finalization fails exactly on a non-empty error list -/

/-- C1: for each builder kind (both config-map packages, Job, JobSpec, Pod,
Volume) and every builder state, `Build` returns an error iff the error list
is non-empty; the error message is the rendering of the complete list in the
recorded order (for Volume behind a fixed prefix), so it contains every
recorded message; when the list is empty `Build` returns the descriptor held
by the builder, whatever its fields are, and no error. -/
theorem C1_build_fails_iff_errors_recorded :
    (∀ b : configmap.Builder, Finalizes "" b.errs b.configMap.object b.Build) ∧
    (∀ b : configMap.Builder, Finalizes "" b.errs b.configMap.object b.Build) ∧
    (∀ b : job.Builder, Finalizes "" b.errs b.job.object b.Build) ∧
    (∀ b : jobspec.Builder, Finalizes "" b.errs b.jobspec b.Build) ∧
    (∀ b : pod.Builder, Finalizes "" b.errs b.pod.Object b.Build) ∧
    (∀ b : volume.Builder,
      Finalizes "failed to validate: build errors were found: " b.errs b.volume.object
        b.Build) :=
  ⟨configmap_finalizes, configMap_finalizes, job_finalizes, jobspec_finalizes,
    pod_finalizes, volume_finalizes⟩

/-! ### C2: descriptor and error are exclusive, except for Volume -/

theorem neverBoth_ite {D : Type} (errs : List String) (d : D) (msg : String) :
    NeverBoth errs d (if errs.length > 0 then (none, some msg) else (some d, none)) := by
  cases errs with
  | nil => exact Or.inl ⟨rfl, rfl⟩
  | cons e es =>
    right
    simp

/-- C2, as stated, fails for the Volume builder: after `WithName("")` the
builder holds one error, and `Build` returns the (non-nil) descriptor together
with the error. -/
theorem C2_volume_build_returns_descriptor_with_error :
    (volume.NewBuilder.WithName "").Build =
      (some { Name := "", VolumeSource := {} },
        some ("failed to validate: build errors were found: " ++
          "[failed to build Volume object: missing Volume name]")) ∧
    ¬ NeverBoth (volume.NewBuilder.WithName "").errs
        (volume.NewBuilder.WithName "").volume.object
        (volume.NewBuilder.WithName "").Build := by
  refine ⟨by decide, ?_⟩
  rintro (⟨h, -⟩ | ⟨h, -, -⟩)
  · exact absurd (congrArg Prod.snd h) (by decide)
  · exact absurd h (by decide)

/-- C2, amended: for both config-map packages, Job, JobSpec and Pod, `Build`
returns either the descriptor with no error (error list empty) or a nil
descriptor with an error (error list non-empty); the Volume builder returns
its descriptor in both cases, and an error exactly when the error list is
non-empty. -/
theorem C2_descriptor_xor_error_except_volume :
    (∀ b : configmap.Builder, NeverBoth b.errs b.configMap.object b.Build) ∧
    (∀ b : configMap.Builder, NeverBoth b.errs b.configMap.object b.Build) ∧
    (∀ b : job.Builder, NeverBoth b.errs b.job.object b.Build) ∧
    (∀ b : jobspec.Builder, NeverBoth b.errs b.jobspec b.Build) ∧
    (∀ b : pod.Builder, NeverBoth b.errs b.pod.Object b.Build) ∧
    (∀ b : volume.Builder,
      b.Build.1 = some b.volume.object ∧ (b.Build.2 = none ↔ b.errs = [])) := by
  refine ⟨fun b => neverBoth_ite _ _ _, fun b => neverBoth_ite _ _ _,
    fun b => neverBoth_ite _ _ _, fun b => neverBoth_ite _ _ _,
    fun b => neverBoth_ite _ _ _, ?_⟩
  intro b
  unfold volume.Builder.Build
  cases hb : b.errs with
  | nil => simp
  | cons e es => simp

/-! ### C3: required strings -/

theorem configmap_recordsOnly (b : configmap.Builder) (msg : String) :
    RecordsOnly configmap.Builder.errs (fun x => x.configMap.object) configmap.Builder.Build
      b { b with errs := b.errs ++ [msg] } msg :=
  ⟨rfl, rfl, (configmap_finalizes _).2.2.1 msg (by simp)⟩

theorem configMap_recordsOnly (b : configMap.Builder) (msg : String) :
    RecordsOnly configMap.Builder.errs (fun x => x.configMap.object) configMap.Builder.Build
      b { b with errs := b.errs ++ [msg] } msg :=
  ⟨rfl, rfl, (configMap_finalizes _).2.2.1 msg (by simp)⟩

theorem job_recordsOnly (b : job.Builder) (msg : String) :
    RecordsOnly job.Builder.errs (fun x => x.job.object) job.Builder.Build
      b { b with errs := b.errs ++ [msg] } msg :=
  ⟨rfl, rfl, (job_finalizes _).2.2.1 msg (by simp)⟩

theorem jobspec_recordsOnly (b : jobspec.Builder) (msg : String) :
    RecordsOnly jobspec.Builder.errs (fun x => x.jobspec) jobspec.Builder.Build
      b { b with errs := b.errs ++ [msg] } msg :=
  ⟨rfl, rfl, (jobspec_finalizes _).2.2.1 msg (by simp)⟩

theorem pod_recordsOnly (b : pod.Builder) (msg : String) :
    RecordsOnly pod.Builder.errs (fun x => x.pod.Object) pod.Builder.Build
      b { b with errs := b.errs ++ [msg] } msg :=
  ⟨rfl, rfl, (pod_finalizes _).2.2.1 msg (by simp)⟩

theorem volume_recordsOnly (b : volume.Builder) (msg : String) :
    RecordsOnly volume.Builder.errs (fun x => x.volume.object) volume.Builder.Build
      b { b with errs := b.errs ++ [msg] } msg :=
  ⟨rfl, rfl, (volume_finalizes _).2.2.1 msg (by simp)⟩

/-- C3: for every builder state, each required-string setter called with the
empty string leaves the descriptor unchanged, appends exactly one error as the
last element of the error list, and the `Build` that follows fails with a
message that contains this error's text. Scenario: on a fresh volume builder
`WithSecret("", nil)` records the single error about the missing secretName,
`Build` fails with it, and the descriptor's Name is still empty. -/
theorem C3_empty_required_string_records_one_error :
    (∀ b : configmap.Builder,
      RecordsOnly configmap.Builder.errs (fun x => x.configMap.object)
        configmap.Builder.Build b (b.WithName "")
        "Failed to build ConfigMap object: missing ConfigMap Name") ∧
    (∀ b : configMap.Builder,
      RecordsOnly configMap.Builder.errs (fun x => x.configMap.object)
        configMap.Builder.Build b (b.WithName "")
        "Failed to build ConfigMap object: missing ConfigMap Name") ∧
    (∀ b : job.Builder,
      RecordsOnly job.Builder.errs (fun x => x.job.object) job.Builder.Build b
        (b.WithName "") "Failed to build Job object: missing Job Name" ∧
      RecordsOnly job.Builder.errs (fun x => x.job.object) job.Builder.Build b
        (b.WithNamespace "") "failed to build Job object: missing namespace") ∧
    (∀ b : pod.Builder,
      RecordsOnly pod.Builder.errs (fun x => x.pod.Object) pod.Builder.Build b
        (b.WithName "") "failed to build Pod object: missing Pod name" ∧
      RecordsOnly pod.Builder.errs (fun x => x.pod.Object) pod.Builder.Build b
        (b.WithNamespace "") "failed to build Pod object: missing namespace" ∧
      RecordsOnly pod.Builder.errs (fun x => x.pod.Object) pod.Builder.Build b
        (b.WithServiceAccountName "")
        "failed to build Pod object: missing Pod serviceaccountname") ∧
    (∀ (b : volume.Builder) (mode : Option Int),
      RecordsOnly volume.Builder.errs (fun x => x.volume.object) volume.Builder.Build b
        (b.WithName "") "failed to build Volume object: missing Volume name" ∧
      RecordsOnly volume.Builder.errs (fun x => x.volume.object) volume.Builder.Build b
        (b.WithHostDirectory "") "failed to build volume object: missing volume path" ∧
      RecordsOnly volume.Builder.errs (fun x => x.volume.object) volume.Builder.Build b
        (b.WithSecret "" mode) "failed to build volume object: missing secretName" ∧
      RecordsOnly volume.Builder.errs (fun x => x.volume.object) volume.Builder.Build b
        (b.WithConfigMap "" mode) "failed to build volume object: nil configMapName" ∧
      RecordsOnly volume.Builder.errs (fun x => x.volume.object) volume.Builder.Build b
        (b.WithPVCSource "") "failed to build volume object: missing pvc name") ∧
    ((volume.NewBuilder.WithSecret "" none).errs =
        ["failed to build volume object: missing secretName"] ∧
      (volume.NewBuilder.WithSecret "" none).Build.2 =
        some ("failed to validate: build errors were found: " ++
          "[failed to build volume object: missing secretName]") ∧
      (volume.NewBuilder.WithSecret "" none).volume.object.Name = "") := by
  refine ⟨fun b => configmap_recordsOnly b _, fun b => configMap_recordsOnly b _,
    fun b => ⟨job_recordsOnly b _, job_recordsOnly b _⟩,
    fun b => ⟨pod_recordsOnly b _, pod_recordsOnly b _, pod_recordsOnly b _⟩,
    fun b mode => ⟨volume_recordsOnly b _, volume_recordsOnly b _, volume_recordsOnly b _,
      volume_recordsOnly b _, volume_recordsOnly b _⟩,
    by decide, by decide, by decide⟩

/-! ### C4: accumulation of errors along a chain -/

theorem accumulates_of_step {C S : Type} (step : S → C → Option S)
    (verdict : S → C → Option String) (errs : S → List String)
    (hstep : ∀ s c s', step s c = some s' → errs s' = errs s ++ (verdict s c).toList) :
    Accumulates step verdict errs := by
  refine ⟨hstep, ?_⟩
  intro s calls
  induction calls generalizing s with
  | nil =>
    intro s' hrun
    simp only [runChain, Option.some.injEq] at hrun
    subst hrun
    simp [owedErrs]
  | cons c cs ih =>
    intro s' hrun
    cases hs : step s c with
    | none => simp [runChain, hs] at hrun
    | some s1 =>
      simp only [runChain, hs] at hrun
      rw [ih s1 s' hrun, hstep s c s1 hs]
      simp [owedErrs, hs]

theorem neverPanics_of_step {C S : Type} (step : S → C → Option S)
    (hstep : ∀ s c, (step s c).isSome = true) : NeverPanics step := by
  intro s calls
  induction calls generalizing s with
  | nil => rfl
  | cons c cs ih =>
    cases hs : step s c with
    | none => have h := hstep s c; simp [hs] at h
    | some s1 => simpa [runChain, hs] using ih s1

theorem len_beq_zero_iff (h : Heap) (r : MapRef) : (h.len r == 0) = true ↔ h.deref r = [] := by
  rw [beq_iff_eq]
  exact List.length_eq_zero

theorem job_step_errs (s : Heap × job.Builder) (c : job.Call) (s' : Heap × job.Builder)
    (hs : job.Call.step s c = some s') :
    s'.2.errs = s.2.errs ++ (job.Call.verdict s c).toList := by
  cases c with
  | WithName name =>
    simp only [job.Call.step, Option.some.injEq] at hs
    subst hs
    by_cases hn : name = "" <;>
      simp [job.Builder.WithName, job.Call.verdict, length_eq_zero_iff, hn]
  | WithNamespace name =>
    simp only [job.Call.step, Option.some.injEq] at hs
    subst hs
    by_cases hn : name = "" <;>
      simp [job.Builder.WithNamespace, job.Call.verdict, length_eq_zero_iff, hn]
  | WithLabels labels =>
    simp only [job.Call.step, Option.some.injEq] at hs
    subst hs
    by_cases hn : s.1.deref labels = []
    · simp [job.Builder.WithLabels, job.Call.verdict, Heap.len, hn]
    · simp only [job.Builder.WithLabels, job.Call.verdict, Heap.len, hn]
      cases s.2.job.object.ObjectMeta.Labels <;> simp [Heap.make, hn]
  | WithPodTemplateSpecBuilder tb =>
    cases tb with
    | none =>
      simp only [job.Call.step, job.Builder.WithPodTemplateSpecBuilder, Option.map_some',
        Option.some.injEq] at hs
      subst hs
      simp [job.Call.verdict]
    | some tb =>
      rcases hb : tb.Build with ⟨o, e⟩
      cases e with
      | some e =>
        simp only [job.Call.step, job.Builder.WithPodTemplateSpecBuilder, hb, Option.map_some',
          Option.some.injEq] at hs
        subst hs
        simp [job.Call.verdict, hb]
      | none =>
        rcases o with _ | ⟨_ | tmpl⟩
        · simp [job.Call.step, job.Builder.WithPodTemplateSpecBuilder, hb] at hs
        · simp [job.Call.step, job.Builder.WithPodTemplateSpecBuilder, hb] at hs
        · simp only [job.Call.step, job.Builder.WithPodTemplateSpecBuilder, hb,
            Option.map_some', Option.some.injEq] at hs
          subst hs
          simp [job.Call.verdict, hb]
  | WithBackOffLimit backoff =>
    cases backoff with
    | none => simp [job.Call.step, job.Builder.WithBackOffLimit] at hs
    | some v =>
      by_cases hv : v < 0
      · simp only [job.Call.step, job.Builder.WithBackOffLimit, hv, if_true, Option.map_some',
          Option.some.injEq] at hs
        subst hs
        simp [job.Call.verdict, hv]
      · simp only [job.Call.step, job.Builder.WithBackOffLimit, hv, if_false, Option.map_some',
          Option.some.injEq] at hs
        subst hs
        simp [job.Call.verdict, hv]
  | WithRestartPolicy p =>
    simp only [job.Call.step, Option.some.injEq] at hs
    subst hs
    simp [job.Builder.WithRestartPolicy, job.Call.verdict]

theorem jobspec_step_errs (b : jobspec.Builder) (c : jobspec.Call) (b' : jobspec.Builder)
    (hs : jobspec.Call.step b c = some b') :
    b'.errs = b.errs ++ (jobspec.Call.verdict b c).toList := by
  cases c with
  | WithBackOffLimit backoff =>
    cases backoff with
    | none => simp [jobspec.Call.step, jobspec.Builder.WithBackOffLimit] at hs
    | some v =>
      by_cases hv : v < 0
      · simp only [jobspec.Call.step, jobspec.Builder.WithBackOffLimit, hv, if_true,
          Option.some.injEq] at hs
        subst hs
        simp [jobspec.Call.verdict, hv]
      · simp only [jobspec.Call.step, jobspec.Builder.WithBackOffLimit, hv, if_false,
          Option.some.injEq] at hs
        subst hs
        simp [jobspec.Call.verdict, hv]
  | WithPodTemplateSpecBuilder tb =>
    cases tb with
    | none =>
      simp only [jobspec.Call.step, jobspec.Builder.WithPodTemplateSpecBuilder,
        Option.some.injEq] at hs
      subst hs
      simp [jobspec.Call.verdict]
    | some tb =>
      rcases hb : tb.Build with ⟨o, e⟩
      cases e with
      | some e =>
        simp only [jobspec.Call.step, jobspec.Builder.WithPodTemplateSpecBuilder, hb,
          Option.some.injEq] at hs
        subst hs
        simp [jobspec.Call.verdict, hb]
      | none =>
        rcases o with _ | ⟨_ | tmpl⟩
        · simp [jobspec.Call.step, jobspec.Builder.WithPodTemplateSpecBuilder, hb] at hs
        · simp [jobspec.Call.step, jobspec.Builder.WithPodTemplateSpecBuilder, hb] at hs
        · simp only [jobspec.Call.step, jobspec.Builder.WithPodTemplateSpecBuilder, hb,
            Option.some.injEq] at hs
          subst hs
          simp [jobspec.Call.verdict, hb]

theorem pod_step_errs (s : Heap × pod.Builder) (c : pod.Call) (s' : Heap × pod.Builder)
    (hs : pod.Call.step s c = some s') :
    s'.2.errs = s.2.errs ++ (pod.Call.verdict s c).toList := by
  cases c with
  | WithName name =>
    simp only [pod.Call.step, Option.some.injEq] at hs
    subst hs
    by_cases hn : name = "" <;>
      simp [pod.Builder.WithName, pod.Call.verdict, length_eq_zero_iff, hn]
  | WithNamespace name =>
    simp only [pod.Call.step, Option.some.injEq] at hs
    subst hs
    by_cases hn : name = "" <;>
      simp [pod.Builder.WithNamespace, pod.Call.verdict, length_eq_zero_iff, hn]
  | WithLabels labels =>
    simp only [pod.Call.step, Option.some.injEq] at hs
    subst hs
    by_cases hn : s.1.deref labels = []
    · simp [pod.Builder.WithLabels, pod.Call.verdict, Heap.len, hn]
    · simp only [pod.Builder.WithLabels, pod.Call.verdict, Heap.len, hn]
      cases s.2.pod.Object.ObjectMeta.Labels <;> simp [Heap.make, hn]
  | WithServiceAccountName name =>
    simp only [pod.Call.step, Option.some.injEq] at hs
    subst hs
    by_cases hn : name = "" <;>
      simp [pod.Builder.WithServiceAccountName, pod.Call.verdict, length_eq_zero_iff, hn]
  | WithRestartPolicy name =>
    simp only [pod.Call.step, Option.some.injEq] at hs
    subst hs
    by_cases hn : name = "" <;>
      simp [pod.Builder.WithRestartPolicy, pod.Call.verdict, length_eq_zero_iff, hn]
  | WithContainerBuilder cb =>
    cases cb with
    | none => simp [pod.Call.step, pod.Builder.WithContainerBuilder, container.Build] at hs
    | some cb =>
      rcases hb : cb.Build with ⟨o, e⟩
      cases e with
      | some e =>
        simp only [pod.Call.step, pod.Builder.WithContainerBuilder, container.Build, hb,
          Option.map_some', Option.some.injEq] at hs
        subst hs
        simp [pod.Call.verdict, hb]
      | none =>
        simp only [pod.Call.step, pod.Builder.WithContainerBuilder, container.Build, hb,
          Option.map_some', Option.some.injEq] at hs
        subst hs
        simp [pod.Call.verdict, hb]
  | WithAnnotations annotations =>
    simp only [pod.Call.step, Option.some.injEq] at hs
    subst hs
    by_cases hn : s.1.deref annotations = []
    · simp [pod.Builder.WithAnnotations, pod.Call.verdict, Heap.len, hn]
    · simp only [pod.Builder.WithAnnotations, pod.Builder.WithAnnotationsNew, pod.Call.verdict,
        Heap.len, hn]
      cases s.2.pod.Object.ObjectMeta.Annotations <;> simp [Heap.make, hn]
  | WithAnnotationsNew annotations =>
    simp only [pod.Call.step, Option.some.injEq] at hs
    subst hs
    by_cases hn : s.1.deref annotations = []
    · simp [pod.Builder.WithAnnotationsNew, pod.Call.verdict, Heap.len, hn]
    · simp [pod.Builder.WithAnnotationsNew, pod.Call.verdict, Heap.len, Heap.make, hn]

theorem volume_step_errs (b : volume.Builder) (c : volume.Call) (b' : volume.Builder)
    (hs : volume.Call.step b c = some b') :
    b'.errs = b.errs ++ (volume.Call.verdict b c).toList := by
  cases c with
  | WithName name =>
    simp only [volume.Call.step, Option.some.injEq] at hs
    subst hs
    by_cases hn : name = "" <;>
      simp [volume.Builder.WithName, volume.Call.verdict, length_eq_zero_iff, hn]
  | WithHostDirectory name =>
    simp only [volume.Call.step, Option.some.injEq] at hs
    subst hs
    by_cases hn : name = "" <;>
      simp [volume.Builder.WithHostDirectory, volume.Call.verdict, length_eq_zero_iff, hn]
  | WithSecret name mode =>
    simp only [volume.Call.step, Option.some.injEq] at hs
    subst hs
    by_cases hn : name = "" <;>
      simp [volume.Builder.WithSecret, volume.Call.verdict, length_eq_zero_iff, hn]
  | WithConfigMap name mode =>
    simp only [volume.Call.step, Option.some.injEq] at hs
    subst hs
    by_cases hn : name = "" <;>
      simp [volume.Builder.WithConfigMap, volume.Call.verdict, length_eq_zero_iff, hn]
  | WithHostPathAndType name dirtype =>
    simp only [volume.Call.step, Option.some.injEq] at hs
    subst hs
    cases dirtype with
    | none => simp [volume.Builder.WithHostPathAndType, volume.Call.verdict]
    | some t =>
      by_cases hn : name = "" <;>
        simp [volume.Builder.WithHostPathAndType, volume.Call.verdict, length_eq_zero_iff, hn]
  | WithPVCSource name =>
    simp only [volume.Call.step, Option.some.injEq] at hs
    subst hs
    by_cases hn : name = "" <;>
      simp [volume.Builder.WithPVCSource, volume.Call.verdict, length_eq_zero_iff, hn]
  | WithEmptyDir dir =>
    simp only [volume.Call.step, Option.some.injEq] at hs
    subst hs
    cases dir <;> simp [volume.Builder.WithEmptyDir, volume.Call.verdict]
  | WithProjectedVolumes name pv =>
    simp only [volume.Call.step, Option.some.injEq] at hs
    subst hs
    cases pv <;> simp [volume.Builder.WithProjectedVolumes, volume.Call.verdict]

theorem configmap_step_errs (s : Heap × configmap.Builder) (c : configmap.Call)
    (s' : Heap × configmap.Builder) (hs : configmap.Call.step s c = some s') :
    s'.2.errs = s.2.errs ++ (configmap.Call.verdict s c).toList := by
  cases c with
  | WithLabels labels =>
    simp only [configmap.Call.step, Option.some.injEq] at hs
    subst hs
    by_cases hn : s.1.deref labels = [] <;>
      simp [configmap.Builder.WithLabels, configmap.Call.verdict, Heap.len, hn]
  | WithName name =>
    simp only [configmap.Call.step, Option.some.injEq] at hs
    subst hs
    by_cases hn : name = "" <;>
      simp [configmap.Builder.WithName, configmap.Call.verdict, length_eq_zero_iff, hn]
  | WithData data =>
    simp only [configmap.Call.step, Option.some.injEq] at hs
    subst hs
    by_cases hn : s.1.deref data = [] <;>
      simp [configmap.Builder.WithData, configmap.Call.verdict, Heap.len, hn]

theorem configMap_step_errs (s : Heap × configMap.Builder) (c : configMap.Call)
    (s' : Heap × configMap.Builder) (hs : configMap.Call.step s c = some s') :
    s'.2.errs = s.2.errs ++ (configMap.Call.verdict s c).toList := by
  cases c with
  | WithName name =>
    simp only [configMap.Call.step, Option.some.injEq] at hs
    subst hs
    by_cases hn : name = "" <;>
      simp [configMap.Builder.WithName, configMap.Call.verdict, length_eq_zero_iff, hn]
  | WithData data =>
    simp only [configMap.Call.step, Option.some.injEq] at hs
    subst hs
    by_cases hn : s.1.deref data = [] <;>
      simp [configMap.Builder.WithData, configMap.Call.verdict, Heap.len, hn]

theorem reachesEndIff_of_step {C S : Type} (step : S → C → Option S) (panics : C → Bool)
    (hstep : ∀ s c, (step s c).isSome = !panics c) : ReachesEndIff step panics := by
  intro s calls
  induction calls generalizing s with
  | nil => rfl
  | cons c cs ih =>
    have hc := hstep s c
    cases hs : step s c with
    | none =>
      rw [hs] at hc
      have hp : panics c = true := by
        cases hpc : panics c
        · rw [hpc] at hc; cases hc
        · rfl
      simp [runChain, hs, hp]
    | some s1 =>
      rw [hs] at hc
      have hp : panics c = false := by
        cases hpc : panics c
        · rfl
        · rw [hpc] at hc; cases hc
      simpa [runChain, hs, hp] using ih s1

theorem job_step_isSome (s : Heap × job.Builder) (c : job.Call) :
    (job.Call.step s c).isSome = !job.Call.panics c := by
  cases c with
  | WithPodTemplateSpecBuilder tb =>
    cases tb with
    | none => rfl
    | some tb =>
      rcases hb : tb.Build with ⟨o, e⟩
      cases e with
      | some e =>
        simp [job.Call.step, job.Call.panics, job.Builder.WithPodTemplateSpecBuilder,
          templatespec.Builder.buildsNil, hb]
      | none =>
        rcases o with _ | ⟨_ | tmpl⟩ <;>
          simp [job.Call.step, job.Call.panics, job.Builder.WithPodTemplateSpecBuilder,
            templatespec.Builder.buildsNil, hb]
  | WithBackOffLimit backoff =>
    cases backoff with
    | none => rfl
    | some v =>
      by_cases hv : v < 0 <;>
        simp [job.Call.step, job.Call.panics, job.Builder.WithBackOffLimit, hv]
  | WithName _ => rfl
  | WithNamespace _ => rfl
  | WithLabels _ => rfl
  | WithRestartPolicy _ => rfl

theorem jobspec_step_isSome (b : jobspec.Builder) (c : jobspec.Call) :
    (jobspec.Call.step b c).isSome = !jobspec.Call.panics c := by
  cases c with
  | WithPodTemplateSpecBuilder tb =>
    cases tb with
    | none => rfl
    | some tb =>
      rcases hb : tb.Build with ⟨o, e⟩
      cases e with
      | some e =>
        simp [jobspec.Call.step, jobspec.Call.panics,
          jobspec.Builder.WithPodTemplateSpecBuilder, templatespec.Builder.buildsNil, hb]
      | none =>
        rcases o with _ | ⟨_ | tmpl⟩ <;>
          simp [jobspec.Call.step, jobspec.Call.panics,
            jobspec.Builder.WithPodTemplateSpecBuilder, templatespec.Builder.buildsNil, hb]
  | WithBackOffLimit backoff =>
    cases backoff with
    | none => rfl
    | some v =>
      by_cases hv : v < 0 <;>
        simp [jobspec.Call.step, jobspec.Call.panics, jobspec.Builder.WithBackOffLimit, hv]

theorem pod_step_isSome (s : Heap × pod.Builder) (c : pod.Call) :
    (pod.Call.step s c).isSome = !pod.Call.panics c := by
  cases c with
  | WithContainerBuilder cb =>
    cases cb with
    | none => rfl
    | some cb =>
      rcases hb : cb.Build with ⟨o, e⟩
      cases e <;>
        simp [pod.Call.step, pod.Call.panics, pod.Builder.WithContainerBuilder,
          container.Build, hb]
  | WithName _ => rfl
  | WithNamespace _ => rfl
  | WithLabels _ => rfl
  | WithServiceAccountName _ => rfl
  | WithRestartPolicy _ => rfl
  | WithAnnotations _ => rfl
  | WithAnnotationsNew _ => rfl

/-- C4: for each builder kind, every setter call that returns extends the
error list by at most one element, at the end: the message owed when the
setter rejects its input, nothing when it accepts it; hence after a chain that
runs to its end the error list is the initial list (empty for a fresh
builder) followed by one record per rejected call, in call order. Chains on
Volume and config-map builders always run to their end; chains on Job, JobSpec
and Pod builders do so exactly when no call passes a nil backoff pointer, a
nil container builder or a template builder whose `Build` returns neither an
error nor a template. `WithHostPathAndType`
with both arguments invalid records one error, and so does `WithAnnotations`
with an empty map. The last two parts evaluate the defect: a chain holding
`WithBackOffLimit(nil)` on a Job or JobSpec builder does not reach its end,
the call panics before any error is recorded. -/
theorem C4_errors_accumulate_in_call_order :
    Accumulates job.Call.step job.Call.verdict (fun s => s.2.errs) ∧
    Accumulates jobspec.Call.step jobspec.Call.verdict jobspec.Builder.errs ∧
    Accumulates pod.Call.step pod.Call.verdict (fun s => s.2.errs) ∧
    Accumulates volume.Call.step volume.Call.verdict volume.Builder.errs ∧
    Accumulates configmap.Call.step configmap.Call.verdict (fun s => s.2.errs) ∧
    Accumulates configMap.Call.step configMap.Call.verdict (fun s => s.2.errs) ∧
    NeverPanics volume.Call.step ∧
    NeverPanics configmap.Call.step ∧
    NeverPanics configMap.Call.step ∧
    ReachesEndIff job.Call.step job.Call.panics ∧
    ReachesEndIff jobspec.Call.step jobspec.Call.panics ∧
    ReachesEndIff pod.Call.step pod.Call.panics ∧
    (∀ b : volume.Builder,
      (b.WithHostPathAndType "" none).errs =
        b.errs ++ ["failed to build volume object: nil volume type"]) ∧
    (∀ (h : Heap) (b : pod.Builder) (annotations : MapRef), h.deref annotations = [] →
      (pod.Builder.WithAnnotations h b annotations).2.errs =
        b.errs ++ ["failed to build pod object: missing annotations"]) ∧
    (runChain job.Call.step (⟨[]⟩, job.NewBuilder)
        [.WithName "", .WithNamespace "ns", .WithBackOffLimit (some (-1)), .WithName "j",
          .WithPodTemplateSpecBuilder none]).map (fun s => s.2.errs) =
      some ["Failed to build Job object: missing Job Name",
        "failed to build Job: invalid backofflimit ",
        "failed to build job: nil templatespecbuilder"] ∧
    (∀ (s : Heap × job.Builder) (pre post : List job.Call),
      runChain job.Call.step s (pre ++ .WithBackOffLimit none :: post) = none) ∧
    (∀ (b : jobspec.Builder) (pre post : List jobspec.Call),
      runChain jobspec.Call.step b (pre ++ .WithBackOffLimit none :: post) = none) := by
  refine ⟨accumulates_of_step _ _ _ job_step_errs, accumulates_of_step _ _ _ jobspec_step_errs,
    accumulates_of_step _ _ _ pod_step_errs, accumulates_of_step _ _ _ volume_step_errs,
    accumulates_of_step _ _ _ configmap_step_errs,
    accumulates_of_step _ _ _ configMap_step_errs,
    neverPanics_of_step _ (fun s c => by cases c <;> rfl),
    neverPanics_of_step _ (fun s c => by cases c <;> rfl),
    neverPanics_of_step _ (fun s c => by cases c <;> rfl),
    reachesEndIff_of_step _ _ job_step_isSome, reachesEndIff_of_step _ _ jobspec_step_isSome,
    reachesEndIff_of_step _ _ pod_step_isSome,
    fun b => rfl, ?_, by decide, ?_, ?_⟩
  · intro h b annotations hn
    simp [pod.Builder.WithAnnotations, Heap.len, hn]
  · intro s pre post
    induction pre generalizing s with
    | nil => rfl
    | cons c cs ih =>
      cases hs : job.Call.step s c with
      | none => simp [runChain, hs]
      | some s1 => simpa [runChain, hs] using ih s1
  · intro b pre post
    induction pre generalizing b with
    | nil => rfl
    | cons c cs ih =>
      cases hs : jobspec.Call.step b c with
      | none => simp [runChain, hs]
      | some s1 => simpa [runChain, hs] using ih s1

/-! ### Maps and the heap -/

theorem GoMap.get_set (m : GoMap) (k v k' : String) :
    (GoMap.set m k v).get k' = if k = k' then some v else m.get k' := by
  induction m with
  | nil => simp [GoMap.set, GoMap.get]
  | cons e rest ih =>
    obtain ⟨a, b⟩ := e
    by_cases hak : a = k
    · subst hak
      by_cases hk : a = k' <;> simp [GoMap.set, GoMap.get, hk]
    · by_cases hk : k = k'
      · subst hk
        simp [GoMap.set, GoMap.get, hak, ih]
      · simp [GoMap.set, GoMap.get, hak, ih, hk]

theorem GoMap.get_eq_none_of_not_mem (m : GoMap) (k : String) (hk : k ∉ m.keys) :
    m.get k = none := by
  induction m with
  | nil => rfl
  | cons e rest ih =>
    obtain ⟨a, b⟩ := e
    simp only [GoMap.keys, List.map_cons, List.mem_cons, not_or] at hk
    have hne : ¬ a = k := fun h => hk.1 h.symm
    simp only [GoMap.get, hne, if_false]
    exact ih hk.2

theorem GoMap.get_foldl_set (es m0 : GoMap) (hn : es.keys.Nodup) (k : String) :
    (es.foldl (fun m e => GoMap.set m e.1 e.2) m0).get k =
      match es.get k with
      | some v => some v
      | none => m0.get k := by
  induction es generalizing m0 with
  | nil => rfl
  | cons e rest ih =>
    obtain ⟨a, b⟩ := e
    simp only [GoMap.keys, List.map_cons, List.nodup_cons] at hn
    rw [List.foldl_cons, ih _ hn.2]
    by_cases hak : a = k
    · subst hak
      have hnone : GoMap.get rest a = none := GoMap.get_eq_none_of_not_mem rest a hn.1
      simp [GoMap.get, hnone, GoMap.get_set]
    · simp [GoMap.get, hak, GoMap.get_set]

theorem Heap.length_assign (h : Heap) (a : Nat) (k v : String) :
    (h.assign a k v).cells.length = h.cells.length := by
  simp [Heap.assign]

theorem Heap.read_assign_self (h : Heap) (a : Nat) (k v : String) (ha : a < h.cells.length) :
    (h.assign a k v).read a = GoMap.set (h.read a) k v := by
  simp [Heap.assign, Heap.read, List.getD_eq_getElem?_getD, List.getElem?_set, ha]

theorem Heap.read_assign_ne (h : Heap) (a x : Nat) (k v : String) (hx : x ≠ a) :
    (h.assign a k v).read x = h.read x := by
  simp [Heap.assign, Heap.read, List.getD_eq_getElem?_getD, List.getElem?_set, Ne.symm hx]

theorem Heap.rangeAssign_spec (h : Heap) (dst : Nat) (es : GoMap) (hd : dst < h.cells.length) :
    (h.rangeAssign dst es).cells.length = h.cells.length ∧
    (h.rangeAssign dst es).read dst = es.foldl (fun m e => GoMap.set m e.1 e.2) (h.read dst) ∧
    ∀ x, x ≠ dst → (h.rangeAssign dst es).read x = h.read x := by
  induction es generalizing h with
  | nil => exact ⟨rfl, rfl, fun _ _ => rfl⟩
  | cons e rest ih =>
    have hd1 : dst < (h.assign dst e.1 e.2).cells.length := by
      rw [Heap.length_assign]; exact hd
    obtain ⟨h1, h2, h3⟩ := ih (h.assign dst e.1 e.2) hd1
    refine ⟨?_, ?_, ?_⟩
    · simpa [Heap.rangeAssign, Heap.length_assign] using h1
    · have : (h.rangeAssign dst (e :: rest)) = (h.assign dst e.1 e.2).rangeAssign dst rest := rfl
      rw [this, h2, Heap.read_assign_self h dst e.1 e.2 hd]
      rfl
    · intro x hx
      have : (h.rangeAssign dst (e :: rest)) = (h.assign dst e.1 e.2).rangeAssign dst rest := rfl
      rw [this, h3 x hx, Heap.read_assign_ne h dst x e.1 e.2 hx]

/-- Merging the entries `es` into the allocated map at `dst`. -/
theorem Heap.rangeAssign_overlays (h : Heap) (dst : Nat) (es : GoMap)
    (hd : dst < h.cells.length) (hn : es.keys.Nodup) :
    (h.rangeAssign dst es).cells.length = h.cells.length ∧
    Overlays (h.read dst) es ((h.rangeAssign dst es).read dst) ∧
    ∀ x, x ≠ dst → (h.rangeAssign dst es).read x = h.read x := by
  obtain ⟨h1, h2, h3⟩ := Heap.rangeAssign_spec h dst es hd
  refine ⟨h1, ?_, h3⟩
  intro k
  rw [h2]
  exact GoMap.get_foldl_set es (h.read dst) hn k

theorem Heap.read_make (h : Heap) (x : Nat) : h.make.1.read x = h.read x := by
  simp only [Heap.make, Heap.read, List.getD_eq_getElem?_getD]
  by_cases hx : x < h.cells.length
  · rw [List.getElem?_append_left hx]
  · have hle : h.cells.length ≤ x := Nat.le_of_not_lt hx
    rw [List.getElem?_append_right hle, List.getElem?_eq_none hle]
    cases hsub : x - h.cells.length with
    | zero => rfl
    | succ n => rfl

theorem Heap.deref_make (h : Heap) (r : MapRef) : h.make.1.deref r = h.deref r := by
  cases r with
  | none => rfl
  | some a => exact Heap.read_make h a

/-- Allocating a map and copying the entries `es` into it. -/
theorem Heap.make_rangeAssign_overlays (h : Heap) (es : GoMap) (hn : es.keys.Nodup) :
    (h.make.1.rangeAssign h.make.2 es).cells.length = h.cells.length + 1 ∧
    Overlays [] es ((h.make.1.rangeAssign h.make.2 es).read h.make.2) ∧
    ∀ x, x ≠ h.make.2 → (h.make.1.rangeAssign h.make.2 es).read x = h.read x := by
  have hd : h.make.2 < h.make.1.cells.length := by simp [Heap.make]
  obtain ⟨h1, h2, h3⟩ := Heap.rangeAssign_overlays h.make.1 h.make.2 es hd hn
  refine ⟨by rw [h1]; simp [Heap.make], ?_, ?_⟩
  · have hr : h.make.1.read h.make.2 = [] := by
      rw [Heap.read_make]
      simp [Heap.make, Heap.read, List.getD_eq_getElem?_getD]
    rw [hr] at h2
    exact h2
  · intro x hx
    rw [h3 x hx, Heap.read_make]

/-! ### C5: additive map setters -/

theorem mergesInto_some (h : Heap) (a : Nat) (m : MapRef) (ha : a < h.cells.length)
    (hnd : (h.deref m).keys.Nodup) :
    MergesInto h (some a) m (h.rangeAssign a (h.deref m)) (some a) := by
  obtain ⟨h1, h2, h3⟩ := Heap.rangeAssign_overlays h a (h.deref m) ha hnd
  exact ⟨a, rfl, by rw [h1]; exact ha, fun _ hx => Option.some.inj hx,
    fun hx => Option.noConfusion hx, h2, h3⟩

theorem mergesInto_none (h : Heap) (m : MapRef) (hnd : (h.deref m).keys.Nodup) :
    MergesInto h none m (h.make.1.rangeAssign h.make.2 (h.make.1.deref m)) (some h.make.2) := by
  rw [Heap.deref_make]
  obtain ⟨h1, h2, h3⟩ := Heap.make_rangeAssign_overlays h (h.deref m) hnd
  refine ⟨h.make.2, rfl, ?_, fun _ hx => Option.noConfusion hx, fun _ => rfl, h2, h3⟩
  rw [h1]
  simp [Heap.make]

theorem len_beq_zero_of_ne (h : Heap) (m : MapRef) (hne : h.deref m ≠ []) :
    (h.len m == 0) = false := by
  cases hb : (h.len m == 0)
  · rfl
  · exact absurd ((len_beq_zero_iff h m).mp hb) hne

theorem job_withLabels_merges (h : Heap) (b : job.Builder) (m : MapRef)
    (hv : h.validRef b.job.object.ObjectMeta.Labels) (hne : h.deref m ≠ [])
    (hnd : (h.deref m).keys.Nodup) :
    MergesInto h b.job.object.ObjectMeta.Labels m (job.Builder.WithLabels h b m).1
      (job.Builder.WithLabels h b m).2.job.object.ObjectMeta.Labels ∧
    (job.Builder.WithLabels h b m).2 =
      { b with job.object.ObjectMeta.Labels :=
          (job.Builder.WithLabels h b m).2.job.object.ObjectMeta.Labels } := by
  cases hl : b.job.object.ObjectMeta.Labels with
  | none =>
    have hr : job.Builder.WithLabels h b m =
        (h.make.1.rangeAssign h.make.2 (h.make.1.deref m),
          { b with job.object.ObjectMeta.Labels := some h.make.2 }) := by
      simp [job.Builder.WithLabels, hl, len_beq_zero_of_ne h m hne]
    rw [hr]
    exact ⟨mergesInto_none h m hnd, rfl⟩
  | some a =>
    have hr : job.Builder.WithLabels h b m = (h.rangeAssign a (h.deref m), b) := by
      simp [job.Builder.WithLabels, hl, len_beq_zero_of_ne h m hne]
    rw [hr]
    rw [hl] at hv
    refine ⟨?_, rfl⟩
    have hm := mergesInto_some h a m hv hnd
    simpa [hl] using hm

theorem pod_withLabels_merges (h : Heap) (b : pod.Builder) (m : MapRef)
    (hv : h.validRef b.pod.Object.ObjectMeta.Labels) (hne : h.deref m ≠ [])
    (hnd : (h.deref m).keys.Nodup) :
    MergesInto h b.pod.Object.ObjectMeta.Labels m (pod.Builder.WithLabels h b m).1
      (pod.Builder.WithLabels h b m).2.pod.Object.ObjectMeta.Labels ∧
    (pod.Builder.WithLabels h b m).2 =
      { b with pod.Object.ObjectMeta.Labels :=
          (pod.Builder.WithLabels h b m).2.pod.Object.ObjectMeta.Labels } := by
  cases hl : b.pod.Object.ObjectMeta.Labels with
  | none =>
    have hr : pod.Builder.WithLabels h b m =
        (h.make.1.rangeAssign h.make.2 (h.make.1.deref m),
          { b with pod.Object.ObjectMeta.Labels := some h.make.2 }) := by
      simp [pod.Builder.WithLabels, hl, len_beq_zero_of_ne h m hne]
    rw [hr]
    exact ⟨mergesInto_none h m hnd, rfl⟩
  | some a =>
    have hr : pod.Builder.WithLabels h b m = (h.rangeAssign a (h.deref m), b) := by
      simp [pod.Builder.WithLabels, hl, len_beq_zero_of_ne h m hne]
    rw [hr]
    rw [hl] at hv
    refine ⟨?_, rfl⟩
    have hm := mergesInto_some h a m hv hnd
    simpa [hl] using hm

theorem pod_withAnnotations_merges (h : Heap) (b : pod.Builder) (m : MapRef)
    (hv : h.validRef b.pod.Object.ObjectMeta.Annotations) (hne : h.deref m ≠ [])
    (hnd : (h.deref m).keys.Nodup) :
    MergesInto h b.pod.Object.ObjectMeta.Annotations m (pod.Builder.WithAnnotations h b m).1
      (pod.Builder.WithAnnotations h b m).2.pod.Object.ObjectMeta.Annotations ∧
    (pod.Builder.WithAnnotations h b m).2 =
      { b with pod.Object.ObjectMeta.Annotations :=
          (pod.Builder.WithAnnotations h b m).2.pod.Object.ObjectMeta.Annotations } := by
  cases hl : b.pod.Object.ObjectMeta.Annotations with
  | none =>
    have hr : pod.Builder.WithAnnotations h b m =
        (h.make.1.rangeAssign h.make.2 (h.make.1.deref m),
          { b with pod.Object.ObjectMeta.Annotations := some h.make.2 }) := by
      simp [pod.Builder.WithAnnotations, pod.Builder.WithAnnotationsNew, hl, len_beq_zero_of_ne h m hne]
    rw [hr]
    exact ⟨mergesInto_none h m hnd, rfl⟩
  | some a =>
    have hr : pod.Builder.WithAnnotations h b m = (h.rangeAssign a (h.deref m), b) := by
      simp [pod.Builder.WithAnnotations, hl, len_beq_zero_of_ne h m hne]
    rw [hr]
    rw [hl] at hv
    refine ⟨?_, rfl⟩
    have hm := mergesInto_some h a m hv hnd
    simpa [hl] using hm

theorem mergesInto_valid {h : Heap} {old m : MapRef} {h' : Heap} {new : MapRef}
    (hm : MergesInto h old m h' new) : h'.validRef new := by
  obtain ⟨d, hd, hlt, -⟩ := hm
  subst hd
  exact hlt

theorem mergesInto_get {h : Heap} {old m : MapRef} {h' : Heap} {new : MapRef}
    (hm : MergesInto h old m h' new) (k v : String) (hk : (h.deref m).get k = some v) :
    (h'.deref new).get k = some v := by
  obtain ⟨d, hd, -, -, -, hov, -⟩ := hm
  subst hd
  have := hov k
  rw [hk] at this
  exact this

/-- C5: in a heap `h` where the argument `m` is a non-empty map (with distinct
keys) and the builder's map field is nil or allocated, each additive setter
(`job.WithLabels`, `pod.WithLabels`, `pod.WithAnnotations`) leaves the field
non-nil, pointing to the map it pointed to (a newly allocated one if it was
nil) whose content is the old content, empty for nil, overlaid with `m`: keys
of `m` carry the value of `m`, other keys keep their old value, no other key
appears. No other map, no other descriptor field and no error changes. When a
second call follows, a key of its argument carries the second call's value. -/
theorem C5_additive_setters_overlay (h : Heap) (m : MapRef) (bj : job.Builder)
    (bp : pod.Builder) (hne : h.deref m ≠ []) (hnd : (h.deref m).keys.Nodup)
    (hj : h.validRef bj.job.object.ObjectMeta.Labels)
    (hl : h.validRef bp.pod.Object.ObjectMeta.Labels)
    (ha : h.validRef bp.pod.Object.ObjectMeta.Annotations) :
    (MergesInto h bj.job.object.ObjectMeta.Labels m (job.Builder.WithLabels h bj m).1
        (job.Builder.WithLabels h bj m).2.job.object.ObjectMeta.Labels ∧
      (job.Builder.WithLabels h bj m).2 =
        { bj with job.object.ObjectMeta.Labels :=
            (job.Builder.WithLabels h bj m).2.job.object.ObjectMeta.Labels } ∧
      ∀ (m2 : MapRef) (k v : String),
        (job.Builder.WithLabels h bj m).1.deref m2 ≠ [] →
        ((job.Builder.WithLabels h bj m).1.deref m2).keys.Nodup →
        ((job.Builder.WithLabels h bj m).1.deref m2).get k = some v →
        ((job.Builder.WithLabels (job.Builder.WithLabels h bj m).1
            (job.Builder.WithLabels h bj m).2 m2).1.deref
          (job.Builder.WithLabels (job.Builder.WithLabels h bj m).1
            (job.Builder.WithLabels h bj m).2 m2).2.job.object.ObjectMeta.Labels).get k
          = some v) ∧
    (MergesInto h bp.pod.Object.ObjectMeta.Labels m (pod.Builder.WithLabels h bp m).1
        (pod.Builder.WithLabels h bp m).2.pod.Object.ObjectMeta.Labels ∧
      (pod.Builder.WithLabels h bp m).2 =
        { bp with pod.Object.ObjectMeta.Labels :=
            (pod.Builder.WithLabels h bp m).2.pod.Object.ObjectMeta.Labels } ∧
      ∀ (m2 : MapRef) (k v : String),
        (pod.Builder.WithLabels h bp m).1.deref m2 ≠ [] →
        ((pod.Builder.WithLabels h bp m).1.deref m2).keys.Nodup →
        ((pod.Builder.WithLabels h bp m).1.deref m2).get k = some v →
        ((pod.Builder.WithLabels (pod.Builder.WithLabels h bp m).1
            (pod.Builder.WithLabels h bp m).2 m2).1.deref
          (pod.Builder.WithLabels (pod.Builder.WithLabels h bp m).1
            (pod.Builder.WithLabels h bp m).2 m2).2.pod.Object.ObjectMeta.Labels).get k
          = some v) ∧
    (MergesInto h bp.pod.Object.ObjectMeta.Annotations m (pod.Builder.WithAnnotations h bp m).1
        (pod.Builder.WithAnnotations h bp m).2.pod.Object.ObjectMeta.Annotations ∧
      (pod.Builder.WithAnnotations h bp m).2 =
        { bp with pod.Object.ObjectMeta.Annotations :=
            (pod.Builder.WithAnnotations h bp m).2.pod.Object.ObjectMeta.Annotations } ∧
      ∀ (m2 : MapRef) (k v : String),
        (pod.Builder.WithAnnotations h bp m).1.deref m2 ≠ [] →
        ((pod.Builder.WithAnnotations h bp m).1.deref m2).keys.Nodup →
        ((pod.Builder.WithAnnotations h bp m).1.deref m2).get k = some v →
        ((pod.Builder.WithAnnotations (pod.Builder.WithAnnotations h bp m).1
            (pod.Builder.WithAnnotations h bp m).2 m2).1.deref
          (pod.Builder.WithAnnotations (pod.Builder.WithAnnotations h bp m).1
            (pod.Builder.WithAnnotations h bp m).2 m2).2.pod.Object.ObjectMeta.Annotations).get k
          = some v) := by
  have h1 := job_withLabels_merges h bj m hj hne hnd
  have h2 := pod_withLabels_merges h bp m hl hne hnd
  have h3 := pod_withAnnotations_merges h bp m ha hne hnd
  refine ⟨⟨h1.1, h1.2, ?_⟩, ⟨h2.1, h2.2, ?_⟩, ⟨h3.1, h3.2, ?_⟩⟩
  · intro m2 k v hne2 hnd2 hk
    exact mergesInto_get
      (job_withLabels_merges _ _ m2 (mergesInto_valid h1.1) hne2 hnd2).1 k v hk
  · intro m2 k v hne2 hnd2 hk
    exact mergesInto_get
      (pod_withLabels_merges _ _ m2 (mergesInto_valid h2.1) hne2 hnd2).1 k v hk
  · intro m2 k v hne2 hnd2 hk
    exact mergesInto_get
      (pod_withAnnotations_merges _ _ m2 (mergesInto_valid h3.1) hne2 hnd2).1 k v hk

/-- Witness for C5: a heap with the maps `{k: v, a: b}` (the builders' current
labels and annotations, address 0) and `{k: w, z: y}` (the argument, address 1). -/
theorem C5_additive_setters_overlay_witness :
    (Heap.mk [[("k", "v"), ("a", "b")], [("k", "w"), ("z", "y")]]).deref (some 1) ≠ [] ∧
    ((job.Builder.WithLabels (Heap.mk [[("k", "v"), ("a", "b")], [("k", "w"), ("z", "y")]])
        { job := { object := { ObjectMeta := { Labels := some 0 } } }, errs := [] }
        (some 1)).1.read 0).get "k" = some "w" ∧
    MergesInto (Heap.mk [[("k", "v"), ("a", "b")], [("k", "w"), ("z", "y")]]) (some 0) (some 1)
      (job.Builder.WithLabels (Heap.mk [[("k", "v"), ("a", "b")], [("k", "w"), ("z", "y")]])
        { job := { object := { ObjectMeta := { Labels := some 0 } } }, errs := [] }
        (some 1)).1
      (job.Builder.WithLabels (Heap.mk [[("k", "v"), ("a", "b")], [("k", "w"), ("z", "y")]])
        { job := { object := { ObjectMeta := { Labels := some 0 } } }, errs := [] }
        (some 1)).2.job.object.ObjectMeta.Labels :=
  ⟨by decide, by decide,
    (C5_additive_setters_overlay
      (Heap.mk [[("k", "v"), ("a", "b")], [("k", "w"), ("z", "y")]]) (some 1)
      { job := { object := { ObjectMeta := { Labels := some 0 } } }, errs := [] }
      { pod := { Object := { ObjectMeta := { Labels := some 0, Annotations := some 0 } } },
        errs := [] }
      (by decide) (by decide) (by decide) (by decide) (by decide)).1.1⟩

/-! ### C6: fresh map setters -/

theorem ne_of_deref_ne_nil (h : Heap) (m : MapRef) (hne : h.deref m ≠ []) :
    m ≠ some h.cells.length := by
  intro hm
  subst hm
  apply hne
  simp [Heap.deref, Heap.read, List.getD_eq_getElem?_getD]

theorem pod_withAnnotationsNew_copies (h : Heap) (b : pod.Builder) (m : MapRef)
    (hne : h.deref m ≠ []) (hnd : (h.deref m).keys.Nodup) :
    pod.Builder.WithAnnotationsNew h b m =
      ((pod.Builder.WithAnnotationsNew h b m).1,
        { b with pod.Object.ObjectMeta.Annotations := some h.cells.length }) ∧
    StoresCopy h m (pod.Builder.WithAnnotationsNew h b m).1 (some h.cells.length) ∧
    ∀ x, x ≠ h.cells.length → (pod.Builder.WithAnnotationsNew h b m).1.read x = h.read x := by
  have hr : pod.Builder.WithAnnotationsNew h b m =
      (h.make.1.rangeAssign h.make.2 (h.make.1.deref m),
        { b with pod.Object.ObjectMeta.Annotations := some h.make.2 }) := by
    simp [pod.Builder.WithAnnotationsNew, len_beq_zero_of_ne h m hne]
  rw [hr, Heap.deref_make]
  obtain ⟨-, h2, h3⟩ := Heap.make_rangeAssign_overlays h (h.deref m) hnd
  refine ⟨rfl, ⟨(ne_of_deref_ne_nil h m hne).symm, ?_⟩, h3⟩
  intro k
  have hk := h2 k
  simp only [GoMap.get] at hk
  show ((h.make.1.rangeAssign h.make.2 (h.deref m)).read h.make.2).get k = _
  rw [hk]
  cases (h.deref m).get k <;> rfl

/-- C6, as stated, fails for the config-map builder: with the argument map
`{k: v}` at address 0, `WithData` and `WithLabels` store the argument itself
(address 0), not a copy, so an assignment made through the caller's map after
the call is seen through the descriptor. -/
theorem C6_configmap_stores_argument_itself :
    (configmap.Builder.WithData (Heap.mk [[("k", "v")]]) configmap.NewBuilder
        (some 0)).2.configMap.object.Data = some 0 ∧
    ¬ StoresCopy (Heap.mk [[("k", "v")]]) (some 0)
        (configmap.Builder.WithData (Heap.mk [[("k", "v")]]) configmap.NewBuilder (some 0)).1
        (configmap.Builder.WithData (Heap.mk [[("k", "v")]]) configmap.NewBuilder
          (some 0)).2.configMap.object.Data ∧
    ¬ StoresCopy (Heap.mk [[("k", "v")]]) (some 0)
        (configmap.Builder.WithLabels (Heap.mk [[("k", "v")]]) configmap.NewBuilder (some 0)).1
        (configmap.Builder.WithLabels (Heap.mk [[("k", "v")]]) configmap.NewBuilder
          (some 0)).2.configMap.object.ObjectMeta.Labels ∧
    (((configmap.Builder.WithData (Heap.mk [[("k", "v")]]) configmap.NewBuilder
        (some 0)).1.assign 0 "k" "changed").deref
      (configmap.Builder.WithData (Heap.mk [[("k", "v")]]) configmap.NewBuilder
        (some 0)).2.configMap.object.Data).get "k" = some "changed" := by
  refine ⟨by decide, ?_, ?_, by decide⟩
  · intro hc
    exact hc.1 (by decide)
  · intro hc
    exact hc.1 (by decide)

/-- C6, amended: for a non-empty argument map `m` (with distinct keys),
`pod.WithAnnotationsNew` replaces the Annotations field, whatever it held, by
a newly allocated map with exactly the content of `m`, different from `m`
and from every map allocated before, and changes no other map, field or
error; `WithData` and `WithLabels` of the config-map builders replace the field
by the argument `m` itself, not a copy, and change nothing else. Scenario:
`NewBuilder().WithName("cfg").WithData({"k":"v"}).Build()` succeeds with
Name "cfg" and Data `{k: v}`. -/
theorem C6_fresh_setters_replace_field (h : Heap) (m : MapRef) (hne : h.deref m ≠ [])
    (hnd : (h.deref m).keys.Nodup) :
    (∀ b : pod.Builder,
      pod.Builder.WithAnnotationsNew h b m =
        ((pod.Builder.WithAnnotationsNew h b m).1,
          { b with pod.Object.ObjectMeta.Annotations := some h.cells.length }) ∧
      StoresCopy h m (pod.Builder.WithAnnotationsNew h b m).1 (some h.cells.length) ∧
      ∀ x, x ≠ h.cells.length → (pod.Builder.WithAnnotationsNew h b m).1.read x = h.read x) ∧
    (∀ b : configmap.Builder,
      configmap.Builder.WithData h b m = (h, { b with configMap.object.Data := m }) ∧
      configmap.Builder.WithLabels h b m =
        (h, { b with configMap.object.ObjectMeta.Labels := m })) ∧
    (∀ b : configMap.Builder,
      configMap.Builder.WithData h b m = (h, { b with configMap.object.Data := m })) ∧
    ((configmap.Builder.WithData (Heap.mk [[("k", "v")]])
        (configmap.NewBuilder.WithName "cfg") (some 0)).2.Build =
        (some { ObjectMeta := { Name := "cfg" }, Data := some 0 }, none) ∧
      (configMap.Builder.WithData (Heap.mk [[("k", "v")]])
        (configMap.NewBuilder.WithName "cfg") (some 0)).2.Build =
        (some { ObjectMeta := { Name := "cfg" }, Data := some 0 }, none) ∧
      (configmap.Builder.WithData (Heap.mk [[("k", "v")]])
        (configmap.NewBuilder.WithName "cfg") (some 0)).1.deref (some 0) = [("k", "v")]) := by
  refine ⟨fun b => pod_withAnnotationsNew_copies h b m hne hnd, ?_, ?_,
    by decide, by decide, by decide⟩
  · intro b
    constructor
    · simp [configmap.Builder.WithData, len_beq_zero_of_ne h m hne]
    · simp [configmap.Builder.WithLabels, len_beq_zero_of_ne h m hne]
  · intro b
    simp [configMap.Builder.WithData, len_beq_zero_of_ne h m hne]

/-- Witness for C6: the heap holds the argument `{k: v, a: b}` at address 0 and
the pod's current annotations `{old: x}` at address 1; the copy is made at
address 2 and does not hold the key `old`. -/
theorem C6_fresh_setters_replace_field_witness :
    (Heap.mk [[("k", "v"), ("a", "b")], [("old", "x")]]).deref (some 0) ≠ [] ∧
    ((Heap.mk [[("k", "v"), ("a", "b")], [("old", "x")]]).deref (some 0)).keys.Nodup ∧
    (pod.Builder.WithAnnotationsNew (Heap.mk [[("k", "v"), ("a", "b")], [("old", "x")]])
        { pod := { Object := { ObjectMeta := { Annotations := some 1 } } }, errs := [] }
        (some 0)) =
      (Heap.mk [[("k", "v"), ("a", "b")], [("old", "x")], [("k", "v"), ("a", "b")]],
        { pod := { Object := { ObjectMeta := { Annotations := some 2 } } }, errs := [] }) ∧
    StoresCopy (Heap.mk [[("k", "v"), ("a", "b")], [("old", "x")]]) (some 0)
      (pod.Builder.WithAnnotationsNew (Heap.mk [[("k", "v"), ("a", "b")], [("old", "x")]])
        { pod := { Object := { ObjectMeta := { Annotations := some 1 } } }, errs := [] }
        (some 0)).1 (some 2) :=
  ⟨by decide, by decide, by decide,
    ((C6_fresh_setters_replace_field (Heap.mk [[("k", "v"), ("a", "b")], [("old", "x")]])
      (some 0) (by decide) (by decide)).1
      { pod := { Object := { ObjectMeta := { Annotations := some 1 } } }, errs := [] }).2.1⟩

/-! ### C7: default file mode of secret and config-map sources -/

/-- C7: for every volume builder state and every non-empty name, `WithSecret`
and `WithConfigMap` record no error, and the DefaultMode of the source they
store is 420 when the mode pointer is nil and the caller's value otherwise,
whatever that value is (0 and 420 included). -/
theorem C7_default_mode_is_420_or_given (b : volume.Builder) (name : String)
    (hname : name ≠ "") :
    ((b.WithSecret name none).errs = b.errs ∧
      (b.WithSecret name none).volume.object.VolumeSource.Secret =
        some { SecretName := name, DefaultMode := some 420 }) ∧
    (∀ v : Int, (b.WithSecret name (some v)).errs = b.errs ∧
      (b.WithSecret name (some v)).volume.object.VolumeSource.Secret =
        some { SecretName := name, DefaultMode := some v }) ∧
    ((b.WithConfigMap name none).errs = b.errs ∧
      (b.WithConfigMap name none).volume.object.VolumeSource.ConfigMap =
        some { Name := name, DefaultMode := some 420 }) ∧
    (∀ v : Int, (b.WithConfigMap name (some v)).errs = b.errs ∧
      (b.WithConfigMap name (some v)).volume.object.VolumeSource.ConfigMap =
        some { Name := name, DefaultMode := some v }) := by
  have hl := length_beq_zero_of_ne hname
  refine ⟨?_, ?_, ?_, ?_⟩
  · simp [volume.Builder.WithSecret, hl]
  · intro v
    simp [volume.Builder.WithSecret, hl]
  · simp [volume.Builder.WithConfigMap, hl]
  · intro v
    simp [volume.Builder.WithConfigMap, hl]

/-- Witness for C7: a fresh volume builder and the name `s`. -/
theorem C7_default_mode_is_420_or_given_witness :
    "s" ≠ "" ∧
    (volume.NewBuilder.WithSecret "s" none).volume.object.VolumeSource.Secret =
      some { SecretName := "s", DefaultMode := some 420 } ∧
    (volume.NewBuilder.WithConfigMap "s" (some 0)).volume.object.VolumeSource.ConfigMap =
      some { Name := "s", DefaultMode := some 0 } :=
  ⟨by decide,
    (C7_default_mode_is_420_or_given volume.NewBuilder "s" (by decide)).1.2,
    ((C7_default_mode_is_420_or_given volume.NewBuilder "s" (by decide)).2.2.2 0).2⟩

/-! ### C8, C9: the backoff limit -/

/-- C8: for every Job and JobSpec builder state and every non-nil backoff
value `v` (any integer, so every 32-bit one): when `0 ≤ v` the call returns the
builder with BackoffLimit pointing to `v` and nothing else changed, no error
recorded; when `v < 0` it returns the builder with exactly one error appended
and the descriptor, BackoffLimit included, unchanged. The value 0 is
accepted. -/
theorem C8_backoff_limit_checked_for_sign (v : Int) :
    (∀ b : job.Builder,
      (0 ≤ v → b.WithBackOffLimit (some v) =
        some { b with job.object.Spec.BackoffLimit := some v }) ∧
      (v < 0 → b.WithBackOffLimit (some v) =
        some { b with errs := b.errs ++ ["failed to build Job: invalid backofflimit "] }) ∧
      b.WithBackOffLimit (some 0) = some { b with job.object.Spec.BackoffLimit := some 0 }) ∧
    (∀ b : jobspec.Builder,
      (0 ≤ v → b.WithBackOffLimit (some v) =
        some { b with jobspec.Object.BackoffLimit := some v }) ∧
      (v < 0 → b.WithBackOffLimit (some v) =
        some { b with errs := b.errs ++ ["failed to build Job: invalid backofflimit "] }) ∧
      b.WithBackOffLimit (some 0) = some { b with jobspec.Object.BackoffLimit := some 0 }) := by
  constructor
  · intro b
    refine ⟨fun hv => ?_, fun hv => ?_, rfl⟩
    · simp [job.Builder.WithBackOffLimit, Int.not_lt.mpr hv]
    · simp [job.Builder.WithBackOffLimit, hv]
  · intro b
    refine ⟨fun hv => ?_, fun hv => ?_, rfl⟩
    · simp [jobspec.Builder.WithBackOffLimit, Int.not_lt.mpr hv]
    · simp [jobspec.Builder.WithBackOffLimit, hv]

/-- C9, evaluated on the code: called with a nil pointer, `WithBackOffLimit`
of the Job and of the JobSpec builder dereferences it before any check; in
every builder state the call panics, no builder is returned and no error is
recorded. -/
theorem C9_nil_backoff_pointer_panics :
    (∀ b : job.Builder, b.WithBackOffLimit none = none) ∧
    (∀ b : jobspec.Builder, b.WithBackOffLimit none = none) ∧
    job.NewBuilder.WithBackOffLimit none = none :=
  ⟨fun _ => rfl, fun _ => rfl, rfl⟩

/-! ### C10: nil template builder -/

/-- C10: for every Job and JobSpec builder state, `WithPodTemplateSpecBuilder`
called with nil returns the builder with exactly one error appended, whose
message cites the nil template builder, and with the descriptor (template
included) unchanged; no nested builder exists whose `Build` could run.
Scenario: `NewBuilder().WithName("j").WithNamespace("ns")
.WithPodTemplateSpecBuilder(nil).Build()` fails, and the accumulated list
holds exactly that error. -/
theorem C10_nil_template_builder_records_one_error :
    (∀ b : job.Builder, b.WithPodTemplateSpecBuilder none =
      some { b with errs := b.errs ++ ["failed to build job: nil templatespecbuilder"] }) ∧
    (∀ b : jobspec.Builder, b.WithPodTemplateSpecBuilder none =
      some { b with errs := b.errs ++ ["failed to build job: nil templatespecbuilder"] }) ∧
    containsText "failed to build job: nil templatespecbuilder" "nil templatespecbuilder" ∧
    ((job.NewBuilder.WithName "j").WithNamespace "ns").WithPodTemplateSpecBuilder none =
      some { job := { object := { ObjectMeta := { Name := "j", Namespace := "ns" } } },
             errs := ["failed to build job: nil templatespecbuilder"] } ∧
    (((job.NewBuilder.WithName "j").WithNamespace "ns").WithPodTemplateSpecBuilder none).map
        job.Builder.Build =
      some (none, some "[failed to build job: nil templatespecbuilder]") :=
  ⟨fun _ => rfl, fun _ => rfl, ⟨"failed to build job: ", "", by decide⟩, by decide, by decide⟩

/-! ### C11: composition setters with a non-nil nested builder -/

/-- C11: for every builder state and every non-nil nested builder. Job and
JobSpec: when the template builder's `Build` returns an error, the setter
returns the builder with the one error `failed to build job` appended and the
descriptor unchanged; when it returns a template and no error, the template
field becomes that template and nothing else changes. Pod: when the container
builder's `Build` returns an error, the one wrapping error is appended and the
container list is unchanged; when it returns no error, the built container is
appended to the container list and no error is added. -/
theorem C11_composition_setters_splice_or_record :
    (∀ (b : job.Builder) (tb : templatespec.Builder),
      (∀ err, tb.Build.2 = some err → b.WithPodTemplateSpecBuilder (some tb) =
        some { b with errs := b.errs ++ ["failed to build job"] }) ∧
      (∀ tmpl, tb.Build = (some { Object := some tmpl }, none) →
        b.WithPodTemplateSpecBuilder (some tb) =
          some { b with job.object.Spec.Template := tmpl })) ∧
    (∀ (b : jobspec.Builder) (tb : templatespec.Builder),
      (∀ err, tb.Build.2 = some err → b.WithPodTemplateSpecBuilder (some tb) =
        some { b with errs := b.errs ++ ["failed to build job"] }) ∧
      (∀ tmpl, tb.Build = (some { Object := some tmpl }, none) →
        b.WithPodTemplateSpecBuilder (some tb) =
          some { b with jobspec.Object.Template := tmpl })) ∧
    (∀ (b : pod.Builder) (cb : container.Builder),
      (∀ err, cb.Build.2 = some err → b.WithContainerBuilder (some cb) =
        some { b with errs := b.errs ++ ["failed to build pod " ++ err] }) ∧
      (cb.Build.2 = none → b.WithContainerBuilder (some cb) =
        some { b with pod.Object.Spec.Containers :=
          b.pod.Object.Spec.Containers ++ [cb.Build.1] })) := by
  refine ⟨fun b tb => ⟨fun err he => ?_, fun tmpl ht => ?_⟩,
    fun b tb => ⟨fun err he => ?_, fun tmpl ht => ?_⟩,
    fun b cb => ⟨fun err he => ?_, fun he => ?_⟩⟩
  · rcases hb : tb.Build with ⟨o, e⟩
    rw [hb] at he
    simp only at he
    subst he
    simp [job.Builder.WithPodTemplateSpecBuilder, hb]
  · simp [job.Builder.WithPodTemplateSpecBuilder, ht]
  · rcases hb : tb.Build with ⟨o, e⟩
    rw [hb] at he
    simp only at he
    subst he
    simp [jobspec.Builder.WithPodTemplateSpecBuilder, hb]
  · simp [jobspec.Builder.WithPodTemplateSpecBuilder, ht]
  · rcases hb : cb.Build with ⟨o, e⟩
    rw [hb] at he
    simp only at he
    subst he
    simp [pod.Builder.WithContainerBuilder, container.Build, hb]
  · rcases hb : cb.Build with ⟨o, e⟩
    rw [hb] at he
    simp only at he
    subst he
    simp [pod.Builder.WithContainerBuilder, container.Build, hb]

/-- Witness for C11: on a fresh Job builder, a template builder whose `Build`
fails with `boom`, and a container builder that builds the container `c`. -/
theorem C11_composition_setters_splice_or_record_witness :
    (templatespec.Builder.mk (none, some "boom")).Build.2 = some "boom" ∧
    job.NewBuilder.WithPodTemplateSpecBuilder (some { Build := (none, some "boom") }) =
      some { job := { object := {} }, errs := ["failed to build job"] } ∧
    (container.Builder.mk ({ Name := "c" }, none)).Build.2 = none ∧
    pod.NewBuilder.WithContainerBuilder (some { Build := ({ Name := "c" }, none) }) =
      some { pod := { Object := { Spec := { Containers := [{ Name := "c" }] } } }, errs := [] } :=
  ⟨rfl,
    (C11_composition_setters_splice_or_record.1 job.NewBuilder
      { Build := (none, some "boom") }).1 "boom" rfl,
    rfl,
    (C11_composition_setters_splice_or_record.2.2 pod.NewBuilder
      { Build := ({ Name := "c" }, none) }).2 rfl⟩

/-! ### C12: a config map without data -/

theorem configmap_data_kept (s : Heap × configmap.Builder) (calls : List configmap.Call)
    (s' : Heap × configmap.Builder) (hno : ∀ c ∈ calls, c.isWithData = false)
    (hrun : runChain configmap.Call.step s calls = some s') :
    s'.2.configMap.object.Data = s.2.configMap.object.Data := by
  induction calls generalizing s with
  | nil =>
    simp only [runChain, Option.some.injEq] at hrun
    rw [← hrun]
  | cons c cs ih =>
    have hc := hno c (List.mem_cons_self c cs)
    have hcs : ∀ x ∈ cs, x.isWithData = false := fun x hx => hno x (List.mem_cons_of_mem c hx)
    cases c with
    | WithData data => simp [configmap.Call.isWithData] at hc
    | WithName name =>
      simp only [runChain, configmap.Call.step] at hrun
      rw [ih _ hcs hrun]
      by_cases hn : name = "" <;> simp [configmap.Builder.WithName, length_eq_zero_iff, hn]
    | WithLabels labels =>
      simp only [runChain, configmap.Call.step] at hrun
      rw [ih _ hcs hrun]
      by_cases hn : s.1.deref labels = [] <;>
        simp [configmap.Builder.WithLabels, Heap.len, hn]

/-- C12, as stated, fails: `NewBuilder().WithName("cfg").Build()` with no
`WithData` call succeeds in both config-map packages; it returns the descriptor
named `cfg` with nil Data and no error. -/
theorem C12_build_without_data_succeeds :
    (configmap.NewBuilder.WithName "cfg").Build =
      (some { ObjectMeta := { Name := "cfg" }, Data := none }, none) ∧
    (configMap.NewBuilder.WithName "cfg").Build =
      (some { ObjectMeta := { Name := "cfg" }, Data := none }, none) ∧
    ¬ FailsForMissingData (configmap.NewBuilder.WithName "cfg").Build ∧
    ¬ FailsForMissingData (configMap.NewBuilder.WithName "cfg").Build := by
  refine ⟨by decide, by decide, ?_, ?_⟩
  · rintro ⟨h, -⟩
    exact absurd h (by decide)
  · rintro ⟨h, -⟩
    exact absurd h (by decide)

/-- C12, amended: for every non-empty name, `NewBuilder().WithName(name).Build()`
with no `WithData` call succeeds in both config-map packages, returning the
descriptor with that name and nil Data; a chain of setter calls without a
`WithData` call leaves Data as it was; the error about the missing Data is
recorded, and makes `Build` fail with no descriptor, when `WithData` is called
with a nil or empty map. -/
theorem C12_missing_data_reported_by_WithData (name : String) (hname : name ≠ "") :
    (configmap.NewBuilder.WithName name).Build =
      (some { ObjectMeta := { Name := name }, Data := none }, none) ∧
    (configMap.NewBuilder.WithName name).Build =
      (some { ObjectMeta := { Name := name }, Data := none }, none) ∧
    (∀ (s : Heap × configmap.Builder) (calls : List configmap.Call)
        (s' : Heap × configmap.Builder),
      (∀ c ∈ calls, c.isWithData = false) → runChain configmap.Call.step s calls = some s' →
      s'.2.configMap.object.Data = s.2.configMap.object.Data) ∧
    (∀ (h : Heap) (b : configmap.Builder) (data : MapRef), h.deref data = [] →
      configmap.Builder.WithData h b data =
        (h, { b with errs := b.errs ++ ["Failed to build ConfigMap object: missing Data"] }) ∧
      FailsForMissingData (configmap.Builder.WithData h b data).2.Build) ∧
    (∀ (h : Heap) (b : configMap.Builder) (data : MapRef), h.deref data = [] →
      configMap.Builder.WithData h b data =
        (h, { b with errs := b.errs ++ ["Failed to build ConfigMap object: missing Data"] }) ∧
      FailsForMissingData (configMap.Builder.WithData h b data).2.Build) := by
  have hl := length_beq_zero_of_ne hname
  refine ⟨?_, ?_, configmap_data_kept, ?_, ?_⟩
  · simp [configmap.Builder.WithName, configmap.NewBuilder, configmap.Builder.Build, hl]
  · simp [configMap.Builder.WithName, configMap.NewBuilder, configMap.Builder.Build, hl]
  · intro h b data hd
    have hr : configmap.Builder.WithData h b data =
        (h, { b with errs :=
          b.errs ++ ["Failed to build ConfigMap object: missing Data"] }) := by
      simp [configmap.Builder.WithData, Heap.len, hd]
    rw [hr]
    refine ⟨rfl, ?_, ?_⟩
    · simp [configmap.Builder.Build]
    · obtain ⟨m, hm, hc⟩ := (configmap_finalizes
        { b with errs := b.errs ++ ["Failed to build ConfigMap object: missing Data"] }).2.2.1
        "Failed to build ConfigMap object: missing Data" (by simp)
      refine ⟨m, hm, ?_⟩
      obtain ⟨pre, post, hpp⟩ := hc
      exact ⟨pre ++ "Failed to build ConfigMap object: ", post, by
        rw [hpp]
        have : "Failed to build ConfigMap object: missing Data" =
            "Failed to build ConfigMap object: " ++ "missing Data" := by decide
        rw [this]
        simp only [String.append_assoc]⟩
  · intro h b data hd
    have hr : configMap.Builder.WithData h b data =
        (h, { b with errs :=
          b.errs ++ ["Failed to build ConfigMap object: missing Data"] }) := by
      simp [configMap.Builder.WithData, Heap.len, hd]
    rw [hr]
    refine ⟨rfl, ?_, ?_⟩
    · simp [configMap.Builder.Build]
    · obtain ⟨m, hm, hc⟩ := (configMap_finalizes
        { b with errs := b.errs ++ ["Failed to build ConfigMap object: missing Data"] }).2.2.1
        "Failed to build ConfigMap object: missing Data" (by simp)
      refine ⟨m, hm, ?_⟩
      obtain ⟨pre, post, hpp⟩ := hc
      exact ⟨pre ++ "Failed to build ConfigMap object: ", post, by
        rw [hpp]
        have : "Failed to build ConfigMap object: missing Data" =
            "Failed to build ConfigMap object: " ++ "missing Data" := by decide
        rw [this]
        simp only [String.append_assoc]⟩

/-- Witness for C12: the name `cfg`. -/
theorem C12_missing_data_reported_by_WithData_witness :
    "cfg" ≠ "" ∧
    (configmap.NewBuilder.WithName "cfg").Build =
      (some { ObjectMeta := { Name := "cfg" }, Data := none }, none) :=
  ⟨by decide, (C12_missing_data_reported_by_WithData "cfg" (by decide)).1⟩

/-! ### C13: the name given to `WithProjectedVolumes` -/

/-- C13, evaluated on the code: `WithProjectedVolumes` validates only the
projected source. Called with an empty name and a non-nil source it records no
error and overwrites the Name field with the empty string, in every builder
state; a volume named `v` by `WithName` then builds successfully without a
name. The sibling setters that assign Name (`WithName`, `WithSecret`,
`WithConfigMap`) reject the empty string. -/
theorem C13_projected_volume_name_not_checked :
    (∀ (b : volume.Builder) (pv : corev1.ProjectedVolumeSource),
      b.WithProjectedVolumes "" (some pv) =
        { b with volume.object.VolumeSource := { Projected := some pv },
                 volume.object.Name := "" } ∧
      (b.WithProjectedVolumes "" (some pv)).errs = b.errs ∧
      (b.WithProjectedVolumes "" (some pv)).volume.object.Name = "") ∧
    ((volume.NewBuilder.WithName "v").WithProjectedVolumes "" (some {})).Build =
      (some { Name := "", VolumeSource := { Projected := some {} } }, none) ∧
    (∀ (b : volume.Builder) (mode : Option Int),
      (b.WithName "").volume.object.Name = b.volume.object.Name ∧
      (b.WithSecret "" mode).volume.object.Name = b.volume.object.Name ∧
      (b.WithConfigMap "" mode).volume.object.Name = b.volume.object.Name) :=
  ⟨fun _ _ => ⟨rfl, rfl, rfl⟩, by decide, fun _ _ => ⟨rfl, rfl, rfl⟩⟩

/-! ### C14: the restart policy -/

/-- C14, evaluated on the code: `pod.WithRestartPolicy` appends exactly one
error for the empty policy and leaves the descriptor unchanged, and stores any
non-empty policy as given with no error. `job.WithRestartPolicy` validates
nothing: in every builder state it stores the policy it is given, the empty
one included, and records no error; a policy `Never` set before is replaced by
the empty policy and `Build` succeeds. -/
theorem C14_restart_policy_checked_by_pod_only :
    (∀ b : pod.Builder, b.WithRestartPolicy "" =
      { b with errs := b.errs ++ ["failed to build Pod object: missing Pod restartpolicy"] }) ∧
    (∀ (b : pod.Builder) (p : String), p ≠ "" →
      b.WithRestartPolicy p = { b with pod.Object.Spec.RestartPolicy := p }) ∧
    (∀ (b : job.Builder) (p : String),
      b.WithRestartPolicy p = { b with job.object.Spec.Template.Spec.RestartPolicy := p }) ∧
    (∀ b : job.Builder, (b.WithRestartPolicy "").errs = b.errs ∧
      (b.WithRestartPolicy "").job.object.Spec.Template.Spec.RestartPolicy = "") ∧
    ((job.NewBuilder.WithRestartPolicy "Never").WithRestartPolicy "").Build =
      (some {}, none) := by
  refine ⟨fun _ => rfl, fun b p hp => ?_, fun _ _ => rfl, fun _ => ⟨rfl, rfl⟩, by decide⟩
  simp [pod.Builder.WithRestartPolicy, length_beq_zero_of_ne hp]

/-! ### C15: order of the non-merge setters -/

theorem succeeds_iff (tb : templatespec.Builder) :
    tb.succeeds = true ↔ ∃ tmpl, tb.Build = (some { Object := some tmpl }, none) := by
  unfold templatespec.Builder.succeeds
  rcases hb : tb.Build with ⟨o, e⟩
  cases e with
  | some e => simp
  | none =>
    rcases o with _ | ⟨_ | tmpl⟩
    · simp
    · simp
    · simp

theorem job_withTemplate_of_succeeds (b : job.Builder) (tb : templatespec.Builder)
    (tmpl : corev1.PodTemplateSpec) (ht : tb.Build = (some { Object := some tmpl }, none)) :
    b.WithPodTemplateSpecBuilder (some tb) =
      some { b with job.object.Spec.Template := tmpl } := by
  simp [job.Builder.WithPodTemplateSpecBuilder, ht]

theorem job_withBackOff_of_nonneg (b : job.Builder) (v : Int) (hv : 0 ≤ v) :
    b.WithBackOffLimit (some v) = some { b with job.object.Spec.BackoffLimit := some v } := by
  simp [job.Builder.WithBackOffLimit, Int.not_lt.mpr hv]

theorem job_withName_of_ne (b : job.Builder) (n : String) (hn : n ≠ "") :
    b.WithName n = { b with job.object.ObjectMeta.Name := n } := by
  simp [job.Builder.WithName, length_beq_zero_of_ne hn]

theorem job_withNamespace_of_ne (b : job.Builder) (n : String) (hn : n ≠ "") :
    b.WithNamespace n = { b with job.object.ObjectMeta.Namespace := n } := by
  simp [job.Builder.WithNamespace, length_beq_zero_of_ne hn]

theorem job_plain_commute (s : Heap × job.Builder) (c1 c2 : job.Call)
    (h1 : c1.validPlain = true) (h2 : c2.validPlain = true) (hne : c1.setter ≠ c2.setter)
    (hnp : job.Call.policyWithTemplate c1 c2 = false) :
    runChain job.Call.step s [c1, c2] = runChain job.Call.step s [c2, c1] ∧
    (runChain job.Call.step s [c1, c2]).isSome = true := by
  cases c1 with
  | WithName n1 =>
    cases c2 with
    | WithName n2 =>
      exact absurd rfl hne
    | WithNamespace n2 =>
      have e1 := fun b => job_withName_of_ne b n1 (by simpa [job.Call.validPlain] using h1)
      have e2 := fun b => job_withNamespace_of_ne b n2 (by simpa [job.Call.validPlain] using h2)
      simp [runChain, job.Call.step, job.Builder.WithRestartPolicy, e1, e2]
    | WithLabels l2 =>
      simp [job.Call.validPlain] at h2
    | WithPodTemplateSpecBuilder tb2 =>
      cases tb2 with
      | none => simp [job.Call.validPlain] at h2
      | some tb2 =>
        have e1 := fun b => job_withName_of_ne b n1 (by simpa [job.Call.validPlain] using h1)
        obtain ⟨t2, ht2⟩ := (succeeds_iff tb2).mp h2
        have e2 := fun b => job_withTemplate_of_succeeds b tb2 t2 ht2
        simp [runChain, job.Call.step, job.Builder.WithRestartPolicy, e1, e2]
    | WithBackOffLimit v2 =>
      cases v2 with
      | none => simp [job.Call.validPlain] at h2
      | some v2 =>
        have e1 := fun b => job_withName_of_ne b n1 (by simpa [job.Call.validPlain] using h1)
        have e2 := fun b => job_withBackOff_of_nonneg b v2 (by simpa [job.Call.validPlain] using h2)
        simp [runChain, job.Call.step, job.Builder.WithRestartPolicy, e1, e2]
    | WithRestartPolicy p2 =>
      have e1 := fun b => job_withName_of_ne b n1 (by simpa [job.Call.validPlain] using h1)
      simp [runChain, job.Call.step, job.Builder.WithRestartPolicy, e1]
  | WithNamespace n1 =>
    cases c2 with
    | WithName n2 =>
      have e1 := fun b => job_withNamespace_of_ne b n1 (by simpa [job.Call.validPlain] using h1)
      have e2 := fun b => job_withName_of_ne b n2 (by simpa [job.Call.validPlain] using h2)
      simp [runChain, job.Call.step, job.Builder.WithRestartPolicy, e1, e2]
    | WithNamespace n2 =>
      exact absurd rfl hne
    | WithLabels l2 =>
      simp [job.Call.validPlain] at h2
    | WithPodTemplateSpecBuilder tb2 =>
      cases tb2 with
      | none => simp [job.Call.validPlain] at h2
      | some tb2 =>
        have e1 := fun b => job_withNamespace_of_ne b n1 (by simpa [job.Call.validPlain] using h1)
        obtain ⟨t2, ht2⟩ := (succeeds_iff tb2).mp h2
        have e2 := fun b => job_withTemplate_of_succeeds b tb2 t2 ht2
        simp [runChain, job.Call.step, job.Builder.WithRestartPolicy, e1, e2]
    | WithBackOffLimit v2 =>
      cases v2 with
      | none => simp [job.Call.validPlain] at h2
      | some v2 =>
        have e1 := fun b => job_withNamespace_of_ne b n1 (by simpa [job.Call.validPlain] using h1)
        have e2 := fun b => job_withBackOff_of_nonneg b v2 (by simpa [job.Call.validPlain] using h2)
        simp [runChain, job.Call.step, job.Builder.WithRestartPolicy, e1, e2]
    | WithRestartPolicy p2 =>
      have e1 := fun b => job_withNamespace_of_ne b n1 (by simpa [job.Call.validPlain] using h1)
      simp [runChain, job.Call.step, job.Builder.WithRestartPolicy, e1]
  | WithLabels l1 =>
    simp [job.Call.validPlain] at h1
  | WithPodTemplateSpecBuilder tb1 =>
    cases tb1 with
    | none => simp [job.Call.validPlain] at h1
    | some tb1 =>
      cases c2 with
      | WithName n2 =>
        obtain ⟨t1, ht1⟩ := (succeeds_iff tb1).mp h1
        have e1 := fun b => job_withTemplate_of_succeeds b tb1 t1 ht1
        have e2 := fun b => job_withName_of_ne b n2 (by simpa [job.Call.validPlain] using h2)
        simp [runChain, job.Call.step, job.Builder.WithRestartPolicy, e1, e2]
      | WithNamespace n2 =>
        obtain ⟨t1, ht1⟩ := (succeeds_iff tb1).mp h1
        have e1 := fun b => job_withTemplate_of_succeeds b tb1 t1 ht1
        have e2 := fun b => job_withNamespace_of_ne b n2 (by simpa [job.Call.validPlain] using h2)
        simp [runChain, job.Call.step, job.Builder.WithRestartPolicy, e1, e2]
      | WithLabels l2 =>
        simp [job.Call.validPlain] at h2
      | WithPodTemplateSpecBuilder tb2 =>
        exact absurd rfl hne
      | WithBackOffLimit v2 =>
        cases v2 with
        | none => simp [job.Call.validPlain] at h2
        | some v2 =>
          obtain ⟨t1, ht1⟩ := (succeeds_iff tb1).mp h1
          have e1 := fun b => job_withTemplate_of_succeeds b tb1 t1 ht1
          have e2 := fun b => job_withBackOff_of_nonneg b v2 (by simpa [job.Call.validPlain] using h2)
          simp [runChain, job.Call.step, job.Builder.WithRestartPolicy, e1, e2]
      | WithRestartPolicy p2 =>
        simp [job.Call.policyWithTemplate, job.Call.setter] at hnp
  | WithBackOffLimit v1 =>
    cases v1 with
    | none => simp [job.Call.validPlain] at h1
    | some v1 =>
      cases c2 with
      | WithName n2 =>
        have e1 := fun b => job_withBackOff_of_nonneg b v1 (by simpa [job.Call.validPlain] using h1)
        have e2 := fun b => job_withName_of_ne b n2 (by simpa [job.Call.validPlain] using h2)
        simp [runChain, job.Call.step, job.Builder.WithRestartPolicy, e1, e2]
      | WithNamespace n2 =>
        have e1 := fun b => job_withBackOff_of_nonneg b v1 (by simpa [job.Call.validPlain] using h1)
        have e2 := fun b => job_withNamespace_of_ne b n2 (by simpa [job.Call.validPlain] using h2)
        simp [runChain, job.Call.step, job.Builder.WithRestartPolicy, e1, e2]
      | WithLabels l2 =>
        simp [job.Call.validPlain] at h2
      | WithPodTemplateSpecBuilder tb2 =>
        cases tb2 with
        | none => simp [job.Call.validPlain] at h2
        | some tb2 =>
          have e1 := fun b => job_withBackOff_of_nonneg b v1 (by simpa [job.Call.validPlain] using h1)
          obtain ⟨t2, ht2⟩ := (succeeds_iff tb2).mp h2
          have e2 := fun b => job_withTemplate_of_succeeds b tb2 t2 ht2
          simp [runChain, job.Call.step, job.Builder.WithRestartPolicy, e1, e2]
      | WithBackOffLimit v2 =>
        exact absurd rfl hne
      | WithRestartPolicy p2 =>
        have e1 := fun b => job_withBackOff_of_nonneg b v1 (by simpa [job.Call.validPlain] using h1)
        simp [runChain, job.Call.step, job.Builder.WithRestartPolicy, e1]
  | WithRestartPolicy p1 =>
    cases c2 with
    | WithName n2 =>
      have e2 := fun b => job_withName_of_ne b n2 (by simpa [job.Call.validPlain] using h2)
      simp [runChain, job.Call.step, job.Builder.WithRestartPolicy, e2]
    | WithNamespace n2 =>
      have e2 := fun b => job_withNamespace_of_ne b n2 (by simpa [job.Call.validPlain] using h2)
      simp [runChain, job.Call.step, job.Builder.WithRestartPolicy, e2]
    | WithLabels l2 =>
      simp [job.Call.validPlain] at h2
    | WithPodTemplateSpecBuilder tb2 =>
      cases tb2 with
      | none => simp [job.Call.validPlain] at h2
      | some tb2 =>
        simp [job.Call.policyWithTemplate, job.Call.setter] at hnp
    | WithBackOffLimit v2 =>
      cases v2 with
      | none => simp [job.Call.validPlain] at h2
      | some v2 =>
        have e2 := fun b => job_withBackOff_of_nonneg b v2 (by simpa [job.Call.validPlain] using h2)
        simp [runChain, job.Call.step, job.Builder.WithRestartPolicy, e2]
    | WithRestartPolicy p2 =>
      exact absurd rfl hne

theorem pod_withName_of_ne (b : pod.Builder) (n : String) (hn : n ≠ "") :
    b.WithName n = { b with pod.Object.ObjectMeta.Name := n } := by
  simp [pod.Builder.WithName, length_beq_zero_of_ne hn]

theorem pod_withNamespace_of_ne (b : pod.Builder) (n : String) (hn : n ≠ "") :
    b.WithNamespace n = { b with pod.Object.ObjectMeta.Namespace := n } := by
  simp [pod.Builder.WithNamespace, length_beq_zero_of_ne hn]

theorem pod_withServiceAccountName_of_ne (b : pod.Builder) (n : String) (hn : n ≠ "") :
    b.WithServiceAccountName n = { b with pod.Object.Spec.ServiceAccountName := n } := by
  simp [pod.Builder.WithServiceAccountName, length_beq_zero_of_ne hn]

theorem pod_withRestartPolicy_of_ne (b : pod.Builder) (n : String) (hn : n ≠ "") :
    b.WithRestartPolicy n = { b with pod.Object.Spec.RestartPolicy := n } := by
  simp [pod.Builder.WithRestartPolicy, length_beq_zero_of_ne hn]

theorem pod_withAnnotationsNew_of_ne (h : Heap) (b : pod.Builder) (m : MapRef)
    (hne : h.deref m ≠ []) :
    pod.Builder.WithAnnotationsNew h b m =
      (h.make.1.rangeAssign h.make.2 (h.make.1.deref m),
        { b with pod.Object.ObjectMeta.Annotations := some h.make.2 }) := by
  simp [pod.Builder.WithAnnotationsNew, len_beq_zero_of_ne h m hne]

theorem pod_plain_commute (s : Heap × pod.Builder) (c1 c2 : pod.Call)
    (h1 : c1.validPlain s.1 = true) (h2 : c2.validPlain s.1 = true)
    (hne : c1.setter ≠ c2.setter) :
    runChain pod.Call.step s [c1, c2] = runChain pod.Call.step s [c2, c1] ∧
    (runChain pod.Call.step s [c1, c2]).isSome = true := by
  cases c1 with
  | WithName n1 =>
    cases c2 with
    | WithName n2 =>
      exact absurd rfl hne
    | WithNamespace n2 =>
      have e1 := fun b => pod_withName_of_ne b n1 (by simpa [pod.Call.validPlain] using h1)
      have e2 := fun b => pod_withNamespace_of_ne b n2 (by simpa [pod.Call.validPlain] using h2)
      simp [runChain, pod.Call.step, e1, e2]
    | WithLabels l2 =>
      simp [pod.Call.validPlain] at h2
    | WithServiceAccountName a2 =>
      have e1 := fun b => pod_withName_of_ne b n1 (by simpa [pod.Call.validPlain] using h1)
      have e2 := fun b => pod_withServiceAccountName_of_ne b a2 (by simpa [pod.Call.validPlain] using h2)
      simp [runChain, pod.Call.step, e1, e2]
    | WithRestartPolicy p2 =>
      have e1 := fun b => pod_withName_of_ne b n1 (by simpa [pod.Call.validPlain] using h1)
      have e2 := fun b => pod_withRestartPolicy_of_ne b p2 (by simpa [pod.Call.validPlain] using h2)
      simp [runChain, pod.Call.step, e1, e2]
    | WithContainerBuilder cb2 =>
      simp [pod.Call.validPlain] at h2
    | WithAnnotations m2 =>
      simp [pod.Call.validPlain] at h2
    | WithAnnotationsNew m2 =>
      have e1 := fun b => pod_withName_of_ne b n1 (by simpa [pod.Call.validPlain] using h1)
      have e2 := fun b => pod_withAnnotationsNew_of_ne s.1 b m2 (by simpa [pod.Call.validPlain] using h2)
      simp [runChain, pod.Call.step, e1, e2]
  | WithNamespace n1 =>
    cases c2 with
    | WithName n2 =>
      have e1 := fun b => pod_withNamespace_of_ne b n1 (by simpa [pod.Call.validPlain] using h1)
      have e2 := fun b => pod_withName_of_ne b n2 (by simpa [pod.Call.validPlain] using h2)
      simp [runChain, pod.Call.step, e1, e2]
    | WithNamespace n2 =>
      exact absurd rfl hne
    | WithLabels l2 =>
      simp [pod.Call.validPlain] at h2
    | WithServiceAccountName a2 =>
      have e1 := fun b => pod_withNamespace_of_ne b n1 (by simpa [pod.Call.validPlain] using h1)
      have e2 := fun b => pod_withServiceAccountName_of_ne b a2 (by simpa [pod.Call.validPlain] using h2)
      simp [runChain, pod.Call.step, e1, e2]
    | WithRestartPolicy p2 =>
      have e1 := fun b => pod_withNamespace_of_ne b n1 (by simpa [pod.Call.validPlain] using h1)
      have e2 := fun b => pod_withRestartPolicy_of_ne b p2 (by simpa [pod.Call.validPlain] using h2)
      simp [runChain, pod.Call.step, e1, e2]
    | WithContainerBuilder cb2 =>
      simp [pod.Call.validPlain] at h2
    | WithAnnotations m2 =>
      simp [pod.Call.validPlain] at h2
    | WithAnnotationsNew m2 =>
      have e1 := fun b => pod_withNamespace_of_ne b n1 (by simpa [pod.Call.validPlain] using h1)
      have e2 := fun b => pod_withAnnotationsNew_of_ne s.1 b m2 (by simpa [pod.Call.validPlain] using h2)
      simp [runChain, pod.Call.step, e1, e2]
  | WithLabels l1 =>
    simp [pod.Call.validPlain] at h1
  | WithServiceAccountName a1 =>
    cases c2 with
    | WithName n2 =>
      have e1 := fun b => pod_withServiceAccountName_of_ne b a1 (by simpa [pod.Call.validPlain] using h1)
      have e2 := fun b => pod_withName_of_ne b n2 (by simpa [pod.Call.validPlain] using h2)
      simp [runChain, pod.Call.step, e1, e2]
    | WithNamespace n2 =>
      have e1 := fun b => pod_withServiceAccountName_of_ne b a1 (by simpa [pod.Call.validPlain] using h1)
      have e2 := fun b => pod_withNamespace_of_ne b n2 (by simpa [pod.Call.validPlain] using h2)
      simp [runChain, pod.Call.step, e1, e2]
    | WithLabels l2 =>
      simp [pod.Call.validPlain] at h2
    | WithServiceAccountName a2 =>
      exact absurd rfl hne
    | WithRestartPolicy p2 =>
      have e1 := fun b => pod_withServiceAccountName_of_ne b a1 (by simpa [pod.Call.validPlain] using h1)
      have e2 := fun b => pod_withRestartPolicy_of_ne b p2 (by simpa [pod.Call.validPlain] using h2)
      simp [runChain, pod.Call.step, e1, e2]
    | WithContainerBuilder cb2 =>
      simp [pod.Call.validPlain] at h2
    | WithAnnotations m2 =>
      simp [pod.Call.validPlain] at h2
    | WithAnnotationsNew m2 =>
      have e1 := fun b => pod_withServiceAccountName_of_ne b a1 (by simpa [pod.Call.validPlain] using h1)
      have e2 := fun b => pod_withAnnotationsNew_of_ne s.1 b m2 (by simpa [pod.Call.validPlain] using h2)
      simp [runChain, pod.Call.step, e1, e2]
  | WithRestartPolicy p1 =>
    cases c2 with
    | WithName n2 =>
      have e1 := fun b => pod_withRestartPolicy_of_ne b p1 (by simpa [pod.Call.validPlain] using h1)
      have e2 := fun b => pod_withName_of_ne b n2 (by simpa [pod.Call.validPlain] using h2)
      simp [runChain, pod.Call.step, e1, e2]
    | WithNamespace n2 =>
      have e1 := fun b => pod_withRestartPolicy_of_ne b p1 (by simpa [pod.Call.validPlain] using h1)
      have e2 := fun b => pod_withNamespace_of_ne b n2 (by simpa [pod.Call.validPlain] using h2)
      simp [runChain, pod.Call.step, e1, e2]
    | WithLabels l2 =>
      simp [pod.Call.validPlain] at h2
    | WithServiceAccountName a2 =>
      have e1 := fun b => pod_withRestartPolicy_of_ne b p1 (by simpa [pod.Call.validPlain] using h1)
      have e2 := fun b => pod_withServiceAccountName_of_ne b a2 (by simpa [pod.Call.validPlain] using h2)
      simp [runChain, pod.Call.step, e1, e2]
    | WithRestartPolicy p2 =>
      exact absurd rfl hne
    | WithContainerBuilder cb2 =>
      simp [pod.Call.validPlain] at h2
    | WithAnnotations m2 =>
      simp [pod.Call.validPlain] at h2
    | WithAnnotationsNew m2 =>
      have e1 := fun b => pod_withRestartPolicy_of_ne b p1 (by simpa [pod.Call.validPlain] using h1)
      have e2 := fun b => pod_withAnnotationsNew_of_ne s.1 b m2 (by simpa [pod.Call.validPlain] using h2)
      simp [runChain, pod.Call.step, e1, e2]
  | WithContainerBuilder cb1 =>
    simp [pod.Call.validPlain] at h1
  | WithAnnotations m1 =>
    simp [pod.Call.validPlain] at h1
  | WithAnnotationsNew m1 =>
    cases c2 with
    | WithName n2 =>
      have e1 := fun b => pod_withAnnotationsNew_of_ne s.1 b m1 (by simpa [pod.Call.validPlain] using h1)
      have e2 := fun b => pod_withName_of_ne b n2 (by simpa [pod.Call.validPlain] using h2)
      simp [runChain, pod.Call.step, e1, e2]
    | WithNamespace n2 =>
      have e1 := fun b => pod_withAnnotationsNew_of_ne s.1 b m1 (by simpa [pod.Call.validPlain] using h1)
      have e2 := fun b => pod_withNamespace_of_ne b n2 (by simpa [pod.Call.validPlain] using h2)
      simp [runChain, pod.Call.step, e1, e2]
    | WithLabels l2 =>
      simp [pod.Call.validPlain] at h2
    | WithServiceAccountName a2 =>
      have e1 := fun b => pod_withAnnotationsNew_of_ne s.1 b m1 (by simpa [pod.Call.validPlain] using h1)
      have e2 := fun b => pod_withServiceAccountName_of_ne b a2 (by simpa [pod.Call.validPlain] using h2)
      simp [runChain, pod.Call.step, e1, e2]
    | WithRestartPolicy p2 =>
      have e1 := fun b => pod_withAnnotationsNew_of_ne s.1 b m1 (by simpa [pod.Call.validPlain] using h1)
      have e2 := fun b => pod_withRestartPolicy_of_ne b p2 (by simpa [pod.Call.validPlain] using h2)
      simp [runChain, pod.Call.step, e1, e2]
    | WithContainerBuilder cb2 =>
      simp [pod.Call.validPlain] at h2
    | WithAnnotations m2 =>
      simp [pod.Call.validPlain] at h2
    | WithAnnotationsNew m2 =>
      exact absurd rfl hne

/-- C15, as stated, fails for one pair of Job setters: on a fresh builder,
`WithRestartPolicy("Never")` followed by `WithPodTemplateSpecBuilder` (with a
builder that builds the zero-valued template) yields a Job whose restart policy
is the template's (empty), the reverse order yields one with policy `Never`. -/
theorem C15_restart_policy_and_template_do_not_commute :
    job.Call.validPlain (.WithRestartPolicy "Never") = true ∧
    job.Call.validPlain
      (.WithPodTemplateSpecBuilder (some { Build := (some { Object := some {} }, none) })) = true ∧
    (runChain job.Call.step (⟨[]⟩, job.NewBuilder)
        [.WithRestartPolicy "Never",
          .WithPodTemplateSpecBuilder (some { Build := (some { Object := some {} }, none) })]).map
        (fun x => x.2.Build) = some (some {}, none) ∧
    (runChain job.Call.step (⟨[]⟩, job.NewBuilder)
        [.WithPodTemplateSpecBuilder (some { Build := (some { Object := some {} }, none) }),
          .WithRestartPolicy "Never"]).map (fun x => x.2.Build) =
      some (some { Spec := { Template := { Spec := { RestartPolicy := "Never" } } } }, none) ∧
    ¬ job.CommuteOnBuild (⟨[]⟩, job.NewBuilder) (.WithRestartPolicy "Never")
        (.WithPodTemplateSpecBuilder (some { Build := (some { Object := some {} }, none) })) := by
  refine ⟨by decide, by decide, by decide, by decide, ?_⟩
  rintro ⟨h, -⟩
  exact absurd h (by decide)

/-- C15, amended: with valid non-empty inputs, any two distinct setters among
Job's `WithName`, `WithNamespace`, `WithBackOffLimit`, `WithRestartPolicy` and
`WithPodTemplateSpecBuilder` (building successfully), other than the pair
`WithRestartPolicy` / `WithPodTemplateSpecBuilder`, and any two distinct setters
among Pod's `WithName`, `WithNamespace`, `WithServiceAccountName`,
`WithRestartPolicy` and `WithAnnotationsNew`, lead in either order to the same
builder state (and heap), hence to the same result of `Build`, and both chains
return. For the excepted pair the later call decides the restart policy:
`WithPodTemplateSpecBuilder` after `WithRestartPolicy` stores the built template
with the template's own policy, `WithRestartPolicy` after
`WithPodTemplateSpecBuilder` stores the template with the given policy. -/
theorem C15_plain_setters_commute_except_policy_and_template :
    (∀ (s : Heap × job.Builder) (c1 c2 : job.Call),
      c1.validPlain = true → c2.validPlain = true → c1.setter ≠ c2.setter →
      job.Call.policyWithTemplate c1 c2 = false →
      runChain job.Call.step s [c1, c2] = runChain job.Call.step s [c2, c1] ∧
      job.CommuteOnBuild s c1 c2) ∧
    (∀ (s : Heap × pod.Builder) (c1 c2 : pod.Call),
      c1.validPlain s.1 = true → c2.validPlain s.1 = true → c1.setter ≠ c2.setter →
      runChain pod.Call.step s [c1, c2] = runChain pod.Call.step s [c2, c1] ∧
      (runChain pod.Call.step s [c1, c2]).isSome = true) ∧
    (∀ (b : job.Builder) (p : String) (tb : templatespec.Builder)
        (tmpl : corev1.PodTemplateSpec),
      tb.Build = (some { Object := some tmpl }, none) →
      (b.WithRestartPolicy p).WithPodTemplateSpecBuilder (some tb) =
        some { b with job.object.Spec.Template := tmpl } ∧
      (b.WithPodTemplateSpecBuilder (some tb)).map (fun x => x.WithRestartPolicy p) =
        some { b with job.object.Spec.Template := { tmpl with Spec.RestartPolicy := p } }) := by
  refine ⟨?_, pod_plain_commute, ?_⟩
  · intro s c1 c2 h1 h2 hne hnp
    obtain ⟨heq, hsome⟩ := job_plain_commute s c1 c2 h1 h2 hne hnp
    exact ⟨heq, by rw [job.CommuteOnBuild, heq]; exact ⟨rfl, by rw [← heq]; exact hsome⟩⟩
  · intro b p tb tmpl ht
    constructor
    · simp [job.Builder.WithPodTemplateSpecBuilder, job.Builder.WithRestartPolicy, ht]
    · simp [job.Builder.WithPodTemplateSpecBuilder, job.Builder.WithRestartPolicy, ht]

/-- Witness for C15: `WithName("j")` and `WithBackOffLimit(3)` on a fresh Job
builder. -/
theorem C15_plain_setters_commute_except_policy_and_template_witness :
    job.Call.validPlain (.WithName "j") = true ∧
    job.Call.validPlain (.WithBackOffLimit (some 3)) = true ∧
    (runChain job.Call.step (⟨[]⟩, job.NewBuilder)
        [.WithBackOffLimit (some 3), .WithName "j"]).map (fun x => x.2.Build) =
      some (some { ObjectMeta := { Name := "j" }, Spec := { BackoffLimit := some 3 } }, none) ∧
    job.CommuteOnBuild (⟨[]⟩, job.NewBuilder) (.WithName "j") (.WithBackOffLimit (some 3)) :=
  ⟨by decide, by decide, by decide,
    (C15_plain_setters_commute_except_policy_and_template.1 (⟨[]⟩, job.NewBuilder)
      (.WithName "j") (.WithBackOffLimit (some 3)) (by decide) (by decide) (by decide)
      (by decide)).2⟩

/-! ### C16: volume sources -/

theorem volume_rejected_keeps_descriptor (b : volume.Builder) (c : volume.Call)
    (b' : volume.Builder) (hs : volume.Call.step b c = some b')
    (hv : (volume.Call.verdict b c).isSome = true) :
    b'.volume.object = b.volume.object := by
  cases c with
  | WithName name =>
    simp only [volume.Call.step, Option.some.injEq] at hs
    subst hs
    by_cases hn : name = ""
    · simp [volume.Builder.WithName, length_eq_zero_iff, hn]
    · simp [volume.Call.verdict, hn] at hv
  | WithHostDirectory name =>
    simp only [volume.Call.step, Option.some.injEq] at hs
    subst hs
    by_cases hn : name = ""
    · simp [volume.Builder.WithHostDirectory, length_eq_zero_iff, hn]
    · simp [volume.Call.verdict, hn] at hv
  | WithSecret name mode =>
    simp only [volume.Call.step, Option.some.injEq] at hs
    subst hs
    by_cases hn : name = ""
    · simp [volume.Builder.WithSecret, length_eq_zero_iff, hn]
    · simp [volume.Call.verdict, hn] at hv
  | WithConfigMap name mode =>
    simp only [volume.Call.step, Option.some.injEq] at hs
    subst hs
    by_cases hn : name = ""
    · simp [volume.Builder.WithConfigMap, length_eq_zero_iff, hn]
    · simp [volume.Call.verdict, hn] at hv
  | WithHostPathAndType name dirtype =>
    simp only [volume.Call.step, Option.some.injEq] at hs
    subst hs
    cases dirtype with
    | none => simp [volume.Builder.WithHostPathAndType]
    | some t =>
      by_cases hn : name = ""
      · simp [volume.Builder.WithHostPathAndType, length_eq_zero_iff, hn]
      · simp [volume.Call.verdict, hn] at hv
  | WithPVCSource name =>
    simp only [volume.Call.step, Option.some.injEq] at hs
    subst hs
    by_cases hn : name = ""
    · simp [volume.Builder.WithPVCSource, length_eq_zero_iff, hn]
    · simp [volume.Call.verdict, hn] at hv
  | WithEmptyDir dir =>
    simp only [volume.Call.step, Option.some.injEq] at hs
    subst hs
    cases dir with
    | none => simp [volume.Builder.WithEmptyDir]
    | some d => simp [volume.Call.verdict] at hv
  | WithProjectedVolumes name pv =>
    simp only [volume.Call.step, Option.some.injEq] at hs
    subst hs
    cases pv with
    | none => simp [volume.Builder.WithProjectedVolumes]
    | some d => simp [volume.Call.verdict] at hv

theorem volume_source_setters_replace (b : volume.Builder) (s : String) (hs : s ≠ "")
    (mode : Option Int) (t : String) (pv : corev1.ProjectedVolumeSource) (name : String) :
    ((b.WithHostDirectory s).volume.object.VolumeSource = { HostPath := some { Path := s } } ∧
      (b.WithHostDirectory s).volume.object.VolumeSource =
        (volume.NewBuilder.WithHostDirectory s).volume.object.VolumeSource) ∧
    ((b.WithHostPathAndType s (some t)).volume.object.VolumeSource =
        { HostPath := some { Path := s, Type_ := some t } } ∧
      (b.WithHostPathAndType s (some t)).volume.object.VolumeSource =
        (volume.NewBuilder.WithHostPathAndType s (some t)).volume.object.VolumeSource) ∧
    ((b.WithSecret s mode).volume.object.VolumeSource =
        { Secret := some { SecretName := s, DefaultMode := some (mode.getD 420) } } ∧
      (b.WithSecret s mode).volume.object.VolumeSource =
        (volume.NewBuilder.WithSecret s mode).volume.object.VolumeSource) ∧
    ((b.WithConfigMap s mode).volume.object.VolumeSource =
        { ConfigMap := some { Name := s, DefaultMode := some (mode.getD 420) } } ∧
      (b.WithConfigMap s mode).volume.object.VolumeSource =
        (volume.NewBuilder.WithConfigMap s mode).volume.object.VolumeSource) ∧
    ((b.WithPVCSource s).volume.object.VolumeSource =
        { PersistentVolumeClaim := some { ClaimName := s } } ∧
      (b.WithPVCSource s).volume.object.VolumeSource =
        (volume.NewBuilder.WithPVCSource s).volume.object.VolumeSource) ∧
    ((b.WithProjectedVolumes name (some pv)).volume.object.VolumeSource =
        { Projected := some pv } ∧
      (b.WithProjectedVolumes name (some pv)).volume.object.VolumeSource =
        (volume.NewBuilder.WithProjectedVolumes name (some pv)).volume.object.VolumeSource) := by
  have hl := length_beq_zero_of_ne hs
  refine ⟨?_, ?_, ?_, ?_, ?_, ⟨rfl, rfl⟩⟩
  · simp [volume.Builder.WithHostDirectory, hl]
  · simp [volume.Builder.WithHostPathAndType, hl]
  · cases mode <;> simp [volume.Builder.WithSecret, hl]
  · cases mode <;> simp [volume.Builder.WithConfigMap, hl]
  · simp [volume.Builder.WithPVCSource, hl]

/-- C16, evaluated on the code: `WithEmptyDir` does not do what the claim says
of every source setter. With a non-nil dir it assigns the EmptyDir member
only, in every builder state, so a source set before stays populated: after
`WithSecret("s", nil)`, `WithEmptyDir(&EmptyDirVolumeSource{})` records no
error and leaves both the secret and the empty-dir source set, a source that
differs from the one the same call produces on a fresh builder. The six
sibling setters `WithHostDirectory`, `WithHostPathAndType`, `WithSecret`,
`WithConfigMap`, `WithPVCSource` and `WithProjectedVolumes` do what the claim
says: with valid arguments each assigns the whole volume source, which then
has only its own kind populated and equals the one the call produces on a
fresh builder, whatever was set before; and a rejected call leaves the
descriptor unchanged. -/
theorem C16_emptyDir_does_not_replace_source :
    ((volume.NewBuilder.WithSecret "s" none).WithEmptyDir (some {})).volume.object.VolumeSource =
      { EmptyDir := some {}, Secret := some { SecretName := "s", DefaultMode := some 420 } } ∧
    (volume.NewBuilder.WithEmptyDir (some {})).volume.object.VolumeSource =
      { EmptyDir := some {} } ∧
    ((volume.NewBuilder.WithSecret "s" none).WithEmptyDir (some {})).volume.object.VolumeSource ≠
      (volume.NewBuilder.WithEmptyDir (some {})).volume.object.VolumeSource ∧
    ((volume.NewBuilder.WithSecret "s" none).WithEmptyDir (some {})).Build =
      (some { Name := "s", VolumeSource :=
        { EmptyDir := some {},
          Secret := some { SecretName := "s", DefaultMode := some 420 } } }, none) ∧
    (∀ (b : volume.Builder) (dir : corev1.EmptyDirVolumeSource),
      (b.WithEmptyDir (some dir)).volume.object.VolumeSource =
        { b.volume.object.VolumeSource with EmptyDir := some dir } ∧
      (b.WithEmptyDir (some dir)).errs = b.errs) ∧
    (∀ (b : volume.Builder) (s : String) (mode : Option Int) (t : String)
        (pv : corev1.ProjectedVolumeSource) (name : String), s ≠ "" →
      (b.WithHostDirectory s).volume.object.VolumeSource =
        (volume.NewBuilder.WithHostDirectory s).volume.object.VolumeSource ∧
      (b.WithHostDirectory s).volume.object.VolumeSource = { HostPath := some { Path := s } } ∧
      (b.WithHostPathAndType s (some t)).volume.object.VolumeSource =
        (volume.NewBuilder.WithHostPathAndType s (some t)).volume.object.VolumeSource ∧
      (b.WithHostPathAndType s (some t)).volume.object.VolumeSource =
        { HostPath := some { Path := s, Type_ := some t } } ∧
      (b.WithSecret s mode).volume.object.VolumeSource =
        (volume.NewBuilder.WithSecret s mode).volume.object.VolumeSource ∧
      (b.WithSecret s mode).volume.object.VolumeSource =
        { Secret := some { SecretName := s, DefaultMode := some (mode.getD 420) } } ∧
      (b.WithConfigMap s mode).volume.object.VolumeSource =
        (volume.NewBuilder.WithConfigMap s mode).volume.object.VolumeSource ∧
      (b.WithConfigMap s mode).volume.object.VolumeSource =
        { ConfigMap := some { Name := s, DefaultMode := some (mode.getD 420) } } ∧
      (b.WithPVCSource s).volume.object.VolumeSource =
        (volume.NewBuilder.WithPVCSource s).volume.object.VolumeSource ∧
      (b.WithPVCSource s).volume.object.VolumeSource =
        { PersistentVolumeClaim := some { ClaimName := s } } ∧
      (b.WithProjectedVolumes name (some pv)).volume.object.VolumeSource =
        (volume.NewBuilder.WithProjectedVolumes name (some pv)).volume.object.VolumeSource ∧
      (b.WithProjectedVolumes name (some pv)).volume.object.VolumeSource =
        { Projected := some pv }) ∧
    (∀ (b : volume.Builder) (c : volume.Call) (b' : volume.Builder),
      volume.Call.step b c = some b' → (volume.Call.verdict b c).isSome = true →
      b'.volume.object = b.volume.object) := by
  refine ⟨by decide, by decide, by decide, by decide, fun _ _ => ⟨rfl, rfl⟩, ?_,
    volume_rejected_keeps_descriptor⟩
  intro b s mode t pv name hs
  obtain ⟨h1, h2, h3, h4, h5, h6⟩ := volume_source_setters_replace b s hs mode t pv name
  exact ⟨h1.2, h1.1, h2.2, h2.1, h3.2, h3.1, h4.2, h4.1, h5.2, h5.1, h6.2, h6.1⟩

/-! ### C17: nil container builder -/

/-- C17, evaluated on the code: `pod.WithContainerBuilder` has no nil check. It
calls `Build` on the pointer it is given first, so what it does for a nil
container builder is whatever that call does: two pointers with the same
outcome of `Build` are treated alike, and with a nil receiver dereferenced by
`Build` the call panics in every builder state, recording no error and
returning no builder. The sibling setters `WithPodTemplateSpecBuilder` of Job
and JobSpec check for nil before building and record one error. -/
theorem C17_nil_container_builder_not_checked :
    (∀ b : pod.Builder, b.WithContainerBuilder none = none) ∧
    (∀ (b : pod.Builder) (cb cb' : Option container.Builder),
      container.Build cb = container.Build cb' →
      b.WithContainerBuilder cb = b.WithContainerBuilder cb') ∧
    pod.NewBuilder.WithContainerBuilder none = none ∧
    (∀ b : job.Builder, b.WithPodTemplateSpecBuilder none =
      some { b with errs := b.errs ++ ["failed to build job: nil templatespecbuilder"] }) ∧
    (∀ b : jobspec.Builder, b.WithPodTemplateSpecBuilder none =
      some { b with errs := b.errs ++ ["failed to build job: nil templatespecbuilder"] }) := by
  refine ⟨fun _ => rfl, ?_, rfl, fun _ => rfl, fun _ => rfl⟩
  intro b cb cb' h
  simp only [pod.Builder.WithContainerBuilder, h]

/-! ### C19: which volume setters assign the Name field -/

/-- C19: for every volume builder state and every non-empty name `n`,
`WithSecret(n, mode)` and `WithConfigMap(n, mode)` set the Name field to `n`,
whatever it held; `WithHostDirectory`, `WithHostPathAndType`, `WithPVCSource` and
`WithEmptyDir` leave Name unchanged for every argument. Hence, for a non-empty
`v`, `WithName(v)` followed by `WithSecret(n, mode)` gives the name `n` and the
reverse order gives `v`, and on a fresh builder both chains build
successfully. -/
theorem C19_secret_and_configmap_set_name (b : volume.Builder) (n : String) (hn : n ≠ "")
    (mode : Option Int) :
    (b.WithSecret n mode).volume.object.Name = n ∧
    (b.WithConfigMap n mode).volume.object.Name = n ∧
    (∀ path, (b.WithHostDirectory path).volume.object.Name = b.volume.object.Name) ∧
    (∀ path dirtype,
      (b.WithHostPathAndType path dirtype).volume.object.Name = b.volume.object.Name) ∧
    (∀ pvcName, (b.WithPVCSource pvcName).volume.object.Name = b.volume.object.Name) ∧
    (∀ dir, (b.WithEmptyDir dir).volume.object.Name = b.volume.object.Name) ∧
    (∀ v : String, v ≠ "" →
      ((b.WithName v).WithSecret n mode).volume.object.Name = n ∧
      ((b.WithSecret n mode).WithName v).volume.object.Name = v ∧
      ((volume.NewBuilder.WithName v).WithSecret n mode).Build =
        (some { Name := n, VolumeSource :=
          { Secret := some { SecretName := n, DefaultMode := some (mode.getD 420) } } },
          none) ∧
      ((volume.NewBuilder.WithSecret n mode).WithName v).Build =
        (some { Name := v, VolumeSource :=
          { Secret := some { SecretName := n, DefaultMode := some (mode.getD 420) } } },
          none)) := by
  have hl := length_beq_zero_of_ne hn
  refine ⟨?_, ?_, ?_, ?_, ?_, ?_, ?_⟩
  · simp [volume.Builder.WithSecret, hl]
  · simp [volume.Builder.WithConfigMap, hl]
  · intro path
    by_cases hp : path = "" <;> simp [volume.Builder.WithHostDirectory, length_eq_zero_iff, hp]
  · intro path dirtype
    cases dirtype with
    | none => simp [volume.Builder.WithHostPathAndType]
    | some t =>
      by_cases hp : path = "" <;>
        simp [volume.Builder.WithHostPathAndType, length_eq_zero_iff, hp]
  · intro pvcName
    by_cases hp : pvcName = "" <;> simp [volume.Builder.WithPVCSource, length_eq_zero_iff, hp]
  · intro dir
    cases dir <;> simp [volume.Builder.WithEmptyDir]
  · intro v hv
    have hlv := length_beq_zero_of_ne hv
    refine ⟨?_, ?_, ?_, ?_⟩
    · simp [volume.Builder.WithSecret, hl]
    · simp [volume.Builder.WithName, hlv]
    · cases mode <;>
        simp [volume.Builder.WithSecret, volume.Builder.WithName, volume.NewBuilder,
          volume.Builder.Build, hl, hlv]
    · cases mode <;>
        simp [volume.Builder.WithSecret, volume.Builder.WithName, volume.NewBuilder,
          volume.Builder.Build, hl, hlv]

/-- Witness for C19: the secret `s` and the volume name `v` on a fresh
builder. -/
theorem C19_secret_and_configmap_set_name_witness :
    "s" ≠ "" ∧
    ((volume.NewBuilder.WithName "v").WithSecret "s" none).Build =
      (some { Name := "s", VolumeSource :=
        { Secret := some { SecretName := "s", DefaultMode := some 420 } } }, none) ∧
    ((volume.NewBuilder.WithSecret "s" none).WithName "v").Build =
      (some { Name := "v", VolumeSource :=
        { Secret := some { SecretName := "s", DefaultMode := some 420 } } }, none) :=
  ⟨by decide,
    ((C19_secret_and_configmap_set_name volume.NewBuilder "s" (by decide) none).2.2.2.2.2.2 "v"
      (by decide)).2.2.1,
    ((C19_secret_and_configmap_set_name volume.NewBuilder "s" (by decide) none).2.2.2.2.2.2 "v"
      (by decide)).2.2.2⟩

/-! ### C20: `WithAnnotations` against `WithAnnotationsNew` -/

/-- C20: for every heap and every Pod builder whose Annotations field is nil,
`WithAnnotations(m)` gives exactly the state (heap, descriptor and error list)
that `WithAnnotationsNew(m)` gives, for every `m`, empty or not. For a builder
whose Annotations field is an allocated map and a non-empty `m` (with distinct
keys), both return with the error list unchanged: `WithAnnotationsNew` stores a
new map holding exactly the entries of `m`, `WithAnnotations` keeps the map the
field pointed to, and its content is the content `WithAnnotationsNew` stores,
plus the previous entries whose keys are not in `m`; no other field differs. -/
theorem C20_annotations_merge_refines_reset (h : Heap) (b : pod.Builder) (m : MapRef) :
    (b.pod.Object.ObjectMeta.Annotations = none →
      pod.Builder.WithAnnotations h b m = pod.Builder.WithAnnotationsNew h b m) ∧
    (∀ a, b.pod.Object.ObjectMeta.Annotations = some a → a < h.cells.length →
      h.deref m ≠ [] → (h.deref m).keys.Nodup →
      (pod.Builder.WithAnnotations h b m).2 = b ∧
      (pod.Builder.WithAnnotationsNew h b m).2 =
        { b with pod.Object.ObjectMeta.Annotations := some h.cells.length } ∧
      (∀ k, ((pod.Builder.WithAnnotationsNew h b m).1.read h.cells.length).get k =
        (h.deref m).get k) ∧
      Overlays (h.read a) ((pod.Builder.WithAnnotationsNew h b m).1.read h.cells.length)
        ((pod.Builder.WithAnnotations h b m).1.read a)) ∧
    (∀ a, b.pod.Object.ObjectMeta.Annotations = some a → h.deref m = [] →
      pod.Builder.WithAnnotations h b m = pod.Builder.WithAnnotationsNew h b m) := by
  refine ⟨?_, ?_, ?_⟩
  · intro hnil
    unfold pod.Builder.WithAnnotations
    by_cases hd : h.deref m = []
    · simp [pod.Builder.WithAnnotationsNew, Heap.len, hd]
    · simp [len_beq_zero_of_ne h m hd, hnil]
  · intro a ha hlt hne hnd
    have hv : h.validRef b.pod.Object.ObjectMeta.Annotations := by rw [ha]; exact hlt
    obtain ⟨hmerge, -⟩ := pod_withAnnotations_merges h b m hv hne hnd
    obtain ⟨hnew, hcopy, -⟩ := pod_withAnnotationsNew_copies h b m hne hnd
    have hr : pod.Builder.WithAnnotations h b m = (h.rangeAssign a (h.deref m), b) := by
      simp [pod.Builder.WithAnnotations, ha, len_beq_zero_of_ne h m hne]
    have hk : ∀ k, ((pod.Builder.WithAnnotationsNew h b m).1.read h.cells.length).get k =
        (h.deref m).get k := hcopy.2
    refine ⟨by rw [hr], by rw [hnew], hk, ?_⟩
    intro k
    rw [hk k, hr]
    have hov := (Heap.rangeAssign_overlays h a (h.deref m) hlt hnd).2.1 k
    exact hov
  · intro a _ hd
    simp [pod.Builder.WithAnnotations, pod.Builder.WithAnnotationsNew, Heap.len, hd]

/-- Witness for C20: annotations `{old: x, k: u}` at address 1, argument
`{k: v, a: b}` at address 0; the merge keeps `old`, the reset does not. -/
theorem C20_annotations_merge_refines_reset_witness :
    (1 : Nat) < (Heap.mk [[("k", "v"), ("a", "b")], [("old", "x"), ("k", "u")]]).cells.length ∧
    (pod.Builder.WithAnnotations (Heap.mk [[("k", "v"), ("a", "b")], [("old", "x"), ("k", "u")]])
        { pod := { Object := { ObjectMeta := { Annotations := some 1 } } }, errs := [] }
        (some 0)).1.read 1 = [("old", "x"), ("k", "v"), ("a", "b")] ∧
    (pod.Builder.WithAnnotationsNew
        (Heap.mk [[("k", "v"), ("a", "b")], [("old", "x"), ("k", "u")]])
        { pod := { Object := { ObjectMeta := { Annotations := some 1 } } }, errs := [] }
        (some 0)).1.read 2 = [("k", "v"), ("a", "b")] ∧
    Overlays [("old", "x"), ("k", "u")]
      ((pod.Builder.WithAnnotationsNew
        (Heap.mk [[("k", "v"), ("a", "b")], [("old", "x"), ("k", "u")]])
        { pod := { Object := { ObjectMeta := { Annotations := some 1 } } }, errs := [] }
        (some 0)).1.read 2)
      ((pod.Builder.WithAnnotations
        (Heap.mk [[("k", "v"), ("a", "b")], [("old", "x"), ("k", "u")]])
        { pod := { Object := { ObjectMeta := { Annotations := some 1 } } }, errs := [] }
        (some 0)).1.read 1) :=
  ⟨by decide, by decide, by decide,
    ((C20_annotations_merge_refines_reset
      (Heap.mk [[("k", "v"), ("a", "b")], [("old", "x"), ("k", "u")]])
      { pod := { Object := { ObjectMeta := { Annotations := some 1 } } }, errs := [] }
      (some 0)).2.1 1 rfl (by decide) (by decide) (by decide)).2.2.2⟩

/-! ### C18: the error of a failed nested build is distinguishable -/

theorem joinErrs_data_cons_cons (e e' : String) (es : List String) :
    (joinErrs (e :: e' :: es)).data = (e.data ++ [' ']) ++ (joinErrs (e' :: es)).data := by
  rw [joinErrs_cons_cons, String.data_append, String.data_append]

theorem separable_spec {M : List String} (hM : separable M = true) {a b : String}
    (ha : a ∈ M) (hb : b ∈ M) :
    a.data ≠ [] ∧ ¬ (b.data ++ [' ']) <+: a.data ∧
      (a ≠ b → ¬ (a.data ++ [' ']) <+: (b.data ++ [' '])) := by
  unfold separable at hM
  rw [List.all_eq_true] at hM
  have h1 := hM a ha
  rw [Bool.and_eq_true, List.all_eq_true] at h1
  have h2 := h1.2 b hb
  rw [Bool.and_eq_true] at h2
  refine ⟨?_, ?_, ?_⟩
  · intro hnil
    have := h1.1
    simp [hnil] at this
  · intro hp
    have := h2.1
    rw [List.isPrefixOf_iff_prefix.mpr hp] at this
    simp at this
  · intro hne hp
    have := h2.2
    rw [List.isPrefixOf_iff_prefix.mpr hp] at this
    simp [hne] at this

theorem joinErrs_injOn (M : List String) (hM : separable M = true) :
    ∀ l1 l2 : List String, (∀ e ∈ l1, e ∈ M) → (∀ e ∈ l2, e ∈ M) →
      joinErrs l1 = joinErrs l2 → l1 = l2 := by
  intro l1
  induction l1 with
  | nil =>
    intro l2 _ h2 hj
    cases l2 with
    | nil => rfl
    | cons b bs =>
      exfalso
      have hb := (separable_spec hM (h2 b (List.mem_cons_self b bs))
        (h2 b (List.mem_cons_self b bs))).1
      have hd := congrArg String.data hj
      cases bs with
      | nil => exact hb hd.symm
      | cons y ys =>
        rw [joinErrs_data_cons_cons] at hd
        have : ([] : List Char) = _ := hd
        simp at this
  | cons a as ih =>
    intro l2 h1 h2 hj
    have haM := h1 a (List.mem_cons_self a as)
    cases l2 with
    | nil =>
      exfalso
      have ha := (separable_spec hM haM haM).1
      have hd := congrArg String.data hj
      cases as with
      | nil => exact ha hd
      | cons x xs =>
        rw [joinErrs_data_cons_cons] at hd
        have : _ = ([] : List Char) := hd
        simp at this
    | cons b bs =>
      have hbM := h2 b (List.mem_cons_self b bs)
      have hd := congrArg String.data hj
      cases as with
      | nil =>
        cases bs with
        | nil =>
          have : a = b := String.ext hd
          rw [this]
        | cons y ys =>
          exfalso
          rw [joinErrs_data_cons_cons] at hd
          have hd' : a.data = (b.data ++ [' ']) ++ (joinErrs (y :: ys)).data := hd
          exact (separable_spec hM haM hbM).2.1 ⟨_, hd'.symm⟩
      | cons x xs =>
        cases bs with
        | nil =>
          exfalso
          rw [joinErrs_data_cons_cons] at hd
          have hd' : (a.data ++ [' ']) ++ (joinErrs (x :: xs)).data = b.data := hd
          exact (separable_spec hM hbM haM).2.1 ⟨_, hd'⟩
        | cons y ys =>
          rw [joinErrs_data_cons_cons, joinErrs_data_cons_cons] at hd
          have hab : a = b := by
            by_contra hne
            have hp1 : (a.data ++ [' ']) <+: (a.data ++ [' ']) ++ (joinErrs (x :: xs)).data :=
              List.prefix_append _ _
            have hp2 : (b.data ++ [' ']) <+: (a.data ++ [' ']) ++ (joinErrs (x :: xs)).data := by
              rw [hd]
              exact List.prefix_append _ _
            rcases List.prefix_or_prefix_of_prefix hp1 hp2 with hp | hp
            · exact (separable_spec hM haM hbM).2.2 hne hp
            · exact (separable_spec hM hbM haM).2.2 (fun h => hne h.symm) hp
          subst hab
          have htail := List.append_cancel_left hd
          have hrest : x :: xs = y :: ys :=
            ih (y :: ys) (fun e he => h1 e (List.mem_cons_of_mem _ he))
              (fun e he => h2 e (List.mem_cons_of_mem _ he)) (String.ext htail)
          rw [hrest]

theorem fmtErrs_injOn (M : List String) (hM : separable M = true)
    (l1 l2 : List String) (h1 : ∀ e ∈ l1, e ∈ M) (h2 : ∀ e ∈ l2, e ∈ M)
    (hf : fmtErrs l1 = fmtErrs l2) : l1 = l2 := by
  apply joinErrs_injOn M hM l1 l2 h1 h2
  have hd := congrArg String.data hf
  simp only [fmtErrs, String.data_append] at hd
  have h3 := List.append_cancel_right hd
  have h4 := List.append_cancel_left h3
  exact String.ext h4

theorem job_verdict_mem (s : Heap × job.Builder) (c : job.Call) (e : String)
    (he : job.Call.verdict s c = some e) : e ∈ job.messages := by
  cases c with
  | WithName name =>
    by_cases hn : name = "" <;> simp [job.Call.verdict, hn] at he
    subst he; decide
  | WithNamespace name =>
    by_cases hn : name = "" <;> simp [job.Call.verdict, hn] at he
    subst he; decide
  | WithLabels labels =>
    by_cases hn : s.1.deref labels = [] <;> simp [job.Call.verdict, hn] at he
    subst he; decide
  | WithPodTemplateSpecBuilder tb =>
    cases tb with
    | none =>
      simp [job.Call.verdict] at he
      subst he; decide
    | some tb =>
      by_cases hb : tb.Build.2.isSome = true <;> simp [job.Call.verdict, hb] at he
      subst he; decide
  | WithBackOffLimit backoff =>
    cases backoff with
    | none => simp [job.Call.verdict] at he
    | some v =>
      by_cases hv : v < 0 <;> simp [job.Call.verdict, hv] at he
      subst he; decide
  | WithRestartPolicy p => simp [job.Call.verdict] at he

theorem job_verdict_wrap_iff (s : Heap × job.Builder) (c : job.Call) :
    job.Call.verdict s c = some job.wrapMessage ↔
      ∃ tb, c = .WithPodTemplateSpecBuilder (some tb) ∧ tb.Build.2.isSome = true := by
  cases c with
  | WithName name =>
    by_cases hn : name = "" <;> simp [job.Call.verdict, job.wrapMessage, hn]
  | WithNamespace name =>
    by_cases hn : name = "" <;> simp [job.Call.verdict, job.wrapMessage, hn]
  | WithLabels labels =>
    by_cases hn : s.1.deref labels = [] <;> simp [job.Call.verdict, job.wrapMessage, hn]
  | WithPodTemplateSpecBuilder tb =>
    cases tb with
    | none =>
      simp [job.Call.verdict, job.wrapMessage]
    | some tb =>
      by_cases hb : tb.Build.2.isSome = true <;>
        simp [job.Call.verdict, job.wrapMessage, hb]
  | WithBackOffLimit backoff =>
    cases backoff with
    | none => simp [job.Call.verdict]
    | some v =>
      by_cases hv : v < 0 <;> simp [job.Call.verdict, job.wrapMessage, hv]
  | WithRestartPolicy p => simp [job.Call.verdict]

theorem job_chain_errs_mem (calls : List job.Call) (s s' : Heap × job.Builder)
    (hs : ∀ e ∈ s.2.errs, e ∈ job.messages)
    (hrun : runChain job.Call.step s calls = some s') :
    ∀ e ∈ s'.2.errs, e ∈ job.messages := by
  induction calls generalizing s with
  | nil =>
    simp only [runChain, Option.some.injEq] at hrun
    rw [← hrun]
    exact hs
  | cons c cs ih =>
    cases hc : job.Call.step s c with
    | none => simp [runChain, hc] at hrun
    | some s1 =>
      simp only [runChain, hc] at hrun
      refine ih s1 ?_ hrun
      intro e he
      rw [job_step_errs s c s1 hc, List.mem_append] at he
      rcases he with he | he
      · exact hs e he
      · cases hv : job.Call.verdict s c with
        | none => simp [hv] at he
        | some m =>
          simp [hv] at he
          subst he
          exact job_verdict_mem s c _ hv

theorem job_build_message_inj (b1 b2 : job.Builder)
    (h1 : ∀ e ∈ b1.errs, e ∈ job.messages) (h2 : ∀ e ∈ b2.errs, e ∈ job.messages)
    (hb : b1.Build.2 = b2.Build.2) : b1.errs = b2.errs := by
  unfold job.Builder.Build at hb
  cases he1 : b1.errs with
  | nil =>
    cases he2 : b2.errs with
    | nil => rfl
    | cons y ys => simp [he1, he2] at hb
  | cons x xs =>
    cases he2 : b2.errs with
    | nil => simp [he1, he2] at hb
    | cons y ys =>
      simp only [he1, he2, List.length_cons, gt_iff_lt, Nat.zero_lt_succ, if_true,
        Option.some.injEq] at hb
      rw [he1] at h1
      rw [he2] at h2
      exact fmtErrs_injOn job.messages (by decide) _ _ h1 h2 hb

/-- C18: in the Job builder the record `failed to build job` is appended by a
setter call exactly when the call is `WithPodTemplateSpecBuilder` with a
non-nil builder whose `Build` returned an error; it differs from every message
recorded for a rejected name, namespace, labels or backoff limit and from the
nil-template-builder message. Every error list reached from a fresh builder
consists of these messages, and for such lists the message returned by `Build`
determines the list: two builders, one holding the nested-build record and one
not, never return the same failure from `Build`. -/
theorem C18_nested_build_failure_is_distinguishable :
    (∀ (s : Heap × job.Builder) (c : job.Call) (s' : Heap × job.Builder),
      job.Call.step s c = some s' →
      (s'.2.errs = s.2.errs ++ [job.wrapMessage] ↔
        ∃ tb, c = .WithPodTemplateSpecBuilder (some tb) ∧ tb.Build.2.isSome = true)) ∧
    job.wrapMessage ∉ job.fieldMessages ∧
    (∀ (h : Heap) (b : job.Builder),
      (b.WithName "").errs = b.errs ++ ["Failed to build Job object: missing Job Name"] ∧
      (b.WithNamespace "").errs = b.errs ++ ["failed to build Job object: missing namespace"] ∧
      (job.Builder.WithLabels h b none).2.errs =
        b.errs ++ ["failed to build Job object: missing labels"] ∧
      (b.WithBackOffLimit (some (-1))).map job.Builder.errs =
        some (b.errs ++ ["failed to build Job: invalid backofflimit "]) ∧
      (b.WithPodTemplateSpecBuilder none).map job.Builder.errs =
        some (b.errs ++ ["failed to build job: nil templatespecbuilder"]) ∧
      (b.WithPodTemplateSpecBuilder (some { Build := (none, some "nested") })).map
        job.Builder.errs = some (b.errs ++ [job.wrapMessage])) ∧
    (∀ (h : Heap) (calls : List job.Call) (s' : Heap × job.Builder),
      runChain job.Call.step (h, job.NewBuilder) calls = some s' →
      ∀ e ∈ s'.2.errs, e ∈ job.messages) ∧
    (∀ b1 b2 : job.Builder, (∀ e ∈ b1.errs, e ∈ job.messages) →
      (∀ e ∈ b2.errs, e ∈ job.messages) →
      job.wrapMessage ∈ b1.errs → job.wrapMessage ∉ b2.errs →
      b1.Build.2 ≠ none ∧ b1.Build.2 ≠ b2.Build.2) := by
  refine ⟨?_, by decide, fun h b => ⟨rfl, rfl, rfl, rfl, rfl, rfl⟩, ?_, ?_⟩
  · intro s c s' hs
    rw [job_step_errs s c s' hs, ← job_verdict_wrap_iff s c]
    constructor
    · intro h
      have h' := List.append_cancel_left h
      cases hv : job.Call.verdict s c with
      | none => simp [hv] at h'
      | some m =>
        simp [hv] at h'
        rw [h']
    · intro h
      rw [h]
      rfl
  · intro h calls s' hrun
    exact job_chain_errs_mem calls (h, job.NewBuilder) s' (fun e he => by cases he) hrun
  · intro b1 b2 h1 h2 hin hnin
    constructor
    · have hne : b1.errs ≠ [] := by
        intro hnil
        rw [hnil] at hin
        cases hin
      exact (job_finalizes b1).1.mpr hne
    · intro hb
      have := job_build_message_inj b1 b2 h1 h2 hb
      rw [this] at hin
      exact hnin hin

end Elves
